import Mathlib

/-!
Verification of the FinWatch document-source pipeline (backend agents) against
its natural-language specification.  Python agents are shallowly embedded as
executable Lean functions over explicit row/state types; external effects
(network transport, SMTP, the SHA-256 digest, the filesystem) are passed in as
oracle parameters, while all decision logic is translated from the source.
Strings are treated as sequences of characters; the Python string operations
used by the code (lower, strip, split, slicing, substring test) are modelled
for this representation.
-/

namespace FinWatch

/-! ## Python-style string helpers -/

/-- Contiguous-occurrence test on character lists. -/
def listInfix : List Char → List Char → Bool
  | pat, [] => pat.isEmpty
  | pat, c :: rest => pat.isPrefixOf (c :: rest) || listInfix pat rest

/-- Substring test: models the Python expression `sub in s`. -/
def pyContains (s sub : String) : Bool :=
  listInfix sub.toList s.toList

/-- Models Python `s.lower()` (ASCII case folding). -/
def pyLower (s : String) : String :=
  String.mk (s.toList.map Char.toLower)

/-- Models Python slicing `s[:n]`. -/
def pyTake (s : String) (n : Nat) : String :=
  String.mk (s.toList.take n)

/-- Models Python `s.strip()` on a character list. -/
def pyStripL (cs : List Char) : List Char :=
  ((cs.dropWhile Char.isWhitespace).reverse.dropWhile Char.isWhitespace).reverse

/-- Models Python `s.strip()`. -/
def pyStrip (s : String) : String :=
  String.mk (pyStripL s.toList)

/-- `s.split(sep)` on character lists for a non-empty separator (leftmost,
non-overlapping, empty pieces kept — the Python semantics).  The `Nat`
argument is structural-recursion fuel; every call site passes the list's
length, which each step strictly consumes, so the zero-fuel fallback is
unreachable. -/
def splitOnGo (s0 : Char) (stail : List Char) (acc : List Char) :
    Nat → List Char → List (List Char)
  | _, [] => [acc.reverse]
  | 0, cs => [acc.reverse ++ cs]
  | fuel + 1, c :: rest =>
    if (s0 :: stail).isPrefixOf (c :: rest) then
      acc.reverse ::
        splitOnGo s0 stail [] fuel ((c :: rest).drop (stail.length + 1))
    else splitOnGo s0 stail (c :: acc) fuel rest

/-- Models Python `s.split(sep)` for a non-empty separator. -/
def pySplit (s sep : String) : List String :=
  match sep.toList with
  | [] => [s]
  | s0 :: stail =>
    (splitOnGo s0 stail [] s.toList.length s.toList).map String.mk

/-- Models Python `s.split(sep)[-1]` for a non-empty separator. -/
def pyLastSplit (s sep : String) : String :=
  (pySplit s sep).getLastD s

/-- Models Python `s.replace(old, new)` for a non-empty `old` (leftmost,
non-overlapping); fuel as in `splitOnGo`. -/
def replaceGo (p0 : Char) (ptail rep : List Char) :
    Nat → List Char → List Char
  | _, [] => []
  | 0, cs => cs
  | fuel + 1, c :: rest =>
    if (p0 :: ptail).isPrefixOf (c :: rest) then
      rep ++ replaceGo p0 ptail rep fuel ((c :: rest).drop (ptail.length + 1))
    else c :: replaceGo p0 ptail rep fuel rest

/-- Models Python `s.replace(old, new)` for a non-empty `old`. -/
def pyReplace (s pat rep : String) : String :=
  match pat.toList with
  | [] => s
  | p0 :: ptail =>
    String.mk (replaceGo p0 ptail rep.toList s.toList.length s.toList)

/-- Models Python `s.startswith(p)` on character lists. -/
def startsWithL (cs pat : List Char) : Bool :=
  pat.isPrefixOf cs

/-! ## Shared row types (the relational model of `app/models.py`)

Timestamps are modelled as integers (minutes since an arbitrary epoch), which
is enough for the cutoff comparisons and the retry back-off arithmetic the
agents perform. -/

structure CompanyRow where
  id : Nat
  company_name : String
  company_slug : String
  website_url : String
  crawl_depth : Nat
  active : Bool
  deriving Repr, DecidableEq

structure DocRow where
  id : Nat
  company_id : Nat
  document_url : String
  file_hash : Option String
  etag : Option String
  last_modified_header : Option String
  local_path : Option String
  doc_type : String
  file_size_bytes : Option Int
  status : String
  metadata_extracted : Bool
  first_page_text : Option String
  language : Option String
  classifier_confidence : Option Rat
  classifier_version : Option String
  needs_review : Bool
  source_type : Option String
  source_domain : Option String
  discovery_strategy : Option String
  first_seen_at : Option Int
  last_seen_at : Option Int
  last_checked : Option Int
  created_at : Int
  deriving Repr, DecidableEq

structure ChangeLogRow where
  document_id : Nat
  change_type : String
  old_hash : Option String
  new_hash : Option String
  detected_at : Int
  deriving Repr, DecidableEq

structure PageChangeRow where
  company_id : Nat
  page_url : String
  change_type : String
  old_text : String
  new_text : String
  diff_summary : String
  new_pdf_urls : List String
  old_hash : Option String
  new_hash : Option String
  detected_at : Int
  deriving Repr, DecidableEq

structure ErrorLogRow where
  company_id : Option Nat
  document_url : String
  step : String
  error_type : String
  error_message : String
  created_at : Int
  deriving Repr, DecidableEq

/-! ## C10: `request_with_retries` (`app/utils/http_client.py`) -/

/-- An HTTP response as the helper sees it: status code plus body text. -/
structure PyResponse where
  status : Nat
  body : String
  deriving Repr, DecidableEq

/-- `RETRYABLE_STATUSES` from `app/utils/http_client.py`. -/
def RETRYABLE_STATUSES : List Nat := [408, 429, 500, 502, 503, 504]

/-- `BLOCK_STATUS_CODES` from `app/utils/http_client.py`. -/
def BLOCK_STATUS_CODES : List Nat := [401, 403, 429, 503]

/-- `BLOCK_PATTERNS` from `app/utils/http_client.py`. -/
def BLOCK_PATTERNS : List String :=
  ["captcha", "access denied", "forbidden", "cloudflare", "bot detection",
   "verify you are human"]

/-- `is_blocked_response` from `app/utils/http_client.py`. -/
def is_blocked_response (r : PyResponse) : Bool :=
  r.status ∈ BLOCK_STATUS_CODES ||
    BLOCK_PATTERNS.any (fun p => pyContains (pyLower (pyTake r.body 3000)) p)

/-- One attempt of the transport: either a delivered response or a
network-level exception (carried as its message). -/
abbrev AttemptOutcome := Except String PyResponse

/-- The retry loop of `request_with_retries`: `attempt` is the current index of
the Python `for attempt in range(retries)` loop.  The backoff sleeps are pure
delays and are not modelled.  The fall-through `raise RuntimeError` after the
loop is the `attempt ≥ retries` branch. -/
def requestAttempts (transport : Nat → AttemptOutcome) (retries : Nat) :
    Nat → AttemptOutcome
  | attempt =>
    if _h : attempt < retries then
      match transport attempt with
      | .ok r =>
          if r.status ∈ RETRYABLE_STATUSES ∧ attempt < retries - 1 then
            requestAttempts transport retries (attempt + 1)
          else
            .ok r
      | .error e =>
          if attempt ≥ retries - 1 then .error e
          else requestAttempts transport retries (attempt + 1)
    else
      .error "request_with_retries exhausted without response"
  termination_by attempt => retries - attempt
  decreasing_by all_goals omega

/-- `request_with_retries` from `app/utils/http_client.py`, with the transport
(the `httpx.request` call) as an oracle giving each attempt's outcome. -/
def request_with_retries (transport : Nat → AttemptOutcome) (retries : Nat := 3) :
    AttemptOutcome :=
  requestAttempts transport retries 0

/-- An attempt outcome that makes the loop continue when it is not the final
attempt: a network error, or a response with a retryable status code. -/
def continuesLoop (o : AttemptOutcome) : Bool :=
  match o with
  | .error _ => true
  | .ok r => r.status ∈ RETRYABLE_STATUSES

/-! ## C8: email gating (`app/agents/email_agent.py`, `app/tasks.py`) -/

/-- Observable effects of an email-sending code path: the reported
`email_sent`/`sent` flag and whether SMTP was contacted at all. -/
structure EmailEffects where
  email_sent : Bool
  smtp_contacted : Bool
  deriving Repr, DecidableEq

/-- `email_agent` from `app/agents/email_agent.py`, reduced to its sending
decision.  `hasChanges` is `state.get("has_changes")`, `companyFound` whether
the company row lookup succeeds, `recipients` the resolved recipient list and
`smtpOk` the outcome of the SMTP transaction when one is attempted.  The
digest body/subject construction does not influence the decision. -/
def email_agent (hasChanges : Bool) (companyFound : Bool)
    (recipients : List String) (smtpOk : Bool) : EmailEffects :=
  if !hasChanges then ⟨false, false⟩
  else if !companyFound then ⟨false, false⟩
  else if recipients.isEmpty then ⟨false, false⟩
  else ⟨smtpOk, true⟩

/-- The per-company 24h ChangeLog aggregation of `run_daily_digest`
(`app/tasks.py`): ChangeLog rows belonging to one of the company's documents
and detected within the cutoff window. -/
def digestDocChanges (docs : List DocRow) (changes : List ChangeLogRow)
    (company : CompanyRow) (cutoff : Int) : List ChangeLogRow :=
  let docIds := (docs.filter (fun d => d.company_id = company.id)).map (·.id)
  changes.filter (fun c => c.document_id ∈ docIds ∧ cutoff ≤ c.detected_at)

/-- The per-company 24h PageChange aggregation of `run_daily_digest`. -/
def digestPageChanges (pchanges : List PageChangeRow) (company : CompanyRow)
    (cutoff : Int) : List PageChangeRow :=
  pchanges.filter (fun p => p.company_id = company.id ∧ cutoff ≤ p.detected_at)

/-- `run_daily_digest` from `app/tasks.py`, reduced to its sending decision:
aggregate the last-24h document and page changes across all active companies;
if both aggregates are empty, return without touching the recipient
configuration or SMTP; otherwise send one digest when recipients exist. -/
def run_daily_digest (companies : List CompanyRow) (docs : List DocRow)
    (changes : List ChangeLogRow) (pchanges : List PageChangeRow)
    (cutoff : Int) (recipients : List String) (smtpOk : Bool) : EmailEffects :=
  let active := companies.filter (·.active)
  let allDoc := active.flatMap (fun c => digestDocChanges docs changes c cutoff)
  let allPage := active.flatMap (fun c => digestPageChanges pchanges c cutoff)
  if allDoc.isEmpty ∧ allPage.isEmpty then ⟨false, false⟩
  else if recipients.isEmpty then ⟨false, false⟩
  else ⟨smtpOk, true⟩

/-! ## C3: rule classifier (`app/agents/classify_agent.py`) -/

/-- `RULES` from `app/agents/classify_agent.py`: each rule is
(category, doc_type, keyword list). -/
def RULES : List (String × String × List String) :=
  [("FINANCIAL", "ANNUAL_REPORT",
    ["annual report", "annual-report", "annualreport", "ar202", "ar-20",
     "yearly report", "full year", "full-year results"]),
   ("FINANCIAL", "QUARTERLY_RESULTS",
    ["quarterly result", "quarter result", "q1 result", "q2 result",
     "q3 result", "q4 result", "q1result", "q2result", "q3result", "q4result",
     "first quarter", "second quarter", "third quarter", "fourth quarter",
     "unaudited result", "qr20", "qtr result"]),
   ("FINANCIAL", "HALF_YEAR_RESULTS",
    ["half year", "half-year", "halfyear", "h1 result", "h2 result",
     "interim result", "six month", "6 month"]),
   ("FINANCIAL", "EARNINGS_RELEASE",
    ["earnings release", "profit announcement", "earnings announcement",
     "net profit", "revenue result", "financial result"]),
   ("FINANCIAL", "INVESTOR_PRESENTATION",
    ["investor presentation", "investor day", "analyst day", "roadshow",
     "analyst presentation", "capital market day", "cmd presentation"]),
   ("FINANCIAL", "FINANCIAL_STATEMENT",
    ["balance sheet", "profit and loss", "p&l", "cash flow statement",
     "standalone financial", "consolidated financial", "financial statement"]),
   ("FINANCIAL", "IPO_PROSPECTUS",
    ["prospectus", "drhp", "rhp", "offer document", "red herring",
     "ipo", "initial public offering"]),
   ("FINANCIAL", "RIGHTS_ISSUE",
    ["rights issue", "rights offer", "fpo", "further public offer",
     "open offer", "buyback"]),
   ("FINANCIAL", "DIVIDEND_NOTICE",
    ["dividend", "record date", "book closure", "interim dividend",
     "final dividend"]),
   ("FINANCIAL", "CONCALL_TRANSCRIPT",
    ["concall", "conference call", "earnings call", "analyst call",
     "q&a transcript", "call transcript"]),
   ("NON_FINANCIAL", "ESG_REPORT",
    ["esg", "sustainability report", "csr report", "brsr",
     "environmental report", "climate report", "net zero",
     "responsible business"]),
   ("NON_FINANCIAL", "CORPORATE_GOVERNANCE",
    ["corporate governance", "board report", "directors report",
     "governance report", "compliance report", "secretarial audit"]),
   ("NON_FINANCIAL", "PRESS_RELEASE",
    ["press release", "media release", "news release", "announcement",
     "merger", "acquisition", "strategic partnership"]),
   ("NON_FINANCIAL", "REGULATORY_FILING",
    ["sebi", "rbi filing", "mca filing", "exchange filing",
     "stock exchange", "regulatory disclosure", "intimation"]),
   ("NON_FINANCIAL", "LEGAL_DOCUMENT",
    ["court order", "arbitration", "legal notice", "litigation",
     "tribunal", "judgment"]),
   ("NON_FINANCIAL", "HR_PEOPLE",
    ["human resource", "hr policy", "esop", "headcount", "diversity",
     "inclusion", "employee", "people report"]),
   ("NON_FINANCIAL", "PRODUCT_BROCHURE",
    ["product", "brochure", "catalogue", "service offering",
     "solution brief", "datasheet"])]

/-- The matching signal of `_classify`: the space-join of the lowercased URL,
the lowercased basename of the local path (tried for both separators) and the
first 3000 characters of the lowercased first-page text. -/
def classifySignals (url local_path first_page_text : String) : String :=
  String.intercalate " "
    [pyLower url,
     pyLastSplit (pyLower local_path) "\\",
     pyLastSplit (pyLower local_path) "/",
     pyTake (pyLower first_page_text) 3000]

/-- The keyword score of one rule against the signal:
`sum(1 for kw in keywords if kw in signals)`. -/
def ruleScore (signals : String) (keywords : List String) : Nat :=
  keywords.countP (fun kw => pyContains signals kw)

/-- `_classify` from `app/agents/classify_agent.py`: fold over `RULES`, keeping
the first rule with a strictly larger score; the fallback when no rule scores
is `(NON_FINANCIAL, OTHER)`. -/
def pyClassify (url local_path first_page_text : String) : String × String :=
  let signals := classifySignals url local_path first_page_text
  let best := RULES.foldl
    (fun (acc : String × String × Nat) rule =>
      let score := ruleScore signals rule.2.2
      if acc.2.2 < score then (rule.1, rule.2.1, score) else acc)
    ("NON_FINANCIAL", "OTHER", 0)
  (best.1, best.2.1)

/-- The per-document database update of `classify_agent`: the only persisted
effect is `doc_type := "CATEGORY|TYPE"` (the bare `doc.doc_type = doc_type`
assignment is immediately overwritten by the combined form). -/
def classify_agent_update (doc : DocRow) : DocRow :=
  let ct := pyClassify doc.document_url (doc.local_path.getD "")
    (doc.first_page_text.getD "")
  { doc with doc_type := ct.1 ++ "|" ++ ct.2 }

/-! ## C4: WebWatch page life-cycle (`app/agents/webwatch_agent.py`)

`sha256_text` and `_make_diff_summary` are pure text functions orthogonal to
the snapshot life-cycle; they enter the model as the parameters `hashFn` and
`diffFn`. -/

structure Snapshot where
  company_id : Nat
  page_url : String
  content_hash : String
  content_text : String
  pdf_urls_found : List String
  status_code : Nat
  is_active : Bool
  deriving Repr, DecidableEq

/-- A change event as written to `page_changes` by `_save_change` (texts are
carried by the row but are irrelevant to the life-cycle claims). -/
structure PageChangeEv where
  page_url : String
  change_type : String
  diff_summary : String
  new_pdf_urls : List String
  old_hash : Option String
  new_hash : Option String
  deriving Repr, DecidableEq

/-- One discovered page: its URL together with the fetch outcome (`none` when
the per-page `try` block raised, in which case the page is skipped while still
counting as discovered). -/
structure FetchedPage where
  page_url : String
  content : Option (String × List String × Nat)
  deriving Repr, DecidableEq

/-- Phase 1 of `webwatch_agent`: flip `is_active` on every known snapshot
whose URL is no longer discovered, without deleting the row. -/
def markDeletedSnaps (snaps : List Snapshot) (live : List String) :
    List Snapshot :=
  snaps.map (fun s =>
    if s.page_url ∉ live ∧ s.is_active then { s with is_active := false } else s)

/-- Phase 1 change events: one `PAGE_DELETED` per previously-active snapshot
whose URL is no longer discovered. -/
def deletedChanges (snaps : List Snapshot) (live : List String) :
    List PageChangeEv :=
  snaps.filterMap (fun s =>
    if s.page_url ∉ live ∧ s.is_active then
      some { page_url := s.page_url, change_type := "PAGE_DELETED",
             diff_summary := "Page no longer reachable: " ++ s.page_url,
             new_pdf_urls := [],
             old_hash := some s.content_hash, new_hash := none }
    else none)

/-- Phase 2, one page: either create a brand-new snapshot (`PAGE_ADDED`) or
update the existing snapshot in place (`is_active := true`, plus
`CONTENT_CHANGED` and/or `NEW_DOC_LINKED` when hash or PDF set changed). -/
def processPage (hashFn : String → String) (diffFn : String → String → String)
    (companyId : Nat) (acc : List Snapshot × List PageChangeEv)
    (p : FetchedPage) : List Snapshot × List PageChangeEv :=
  match p.content with
  | none => acc
  | some (text, pdfs, status) =>
    let (snaps, evs) := acc
    let pageHash := hashFn text
    match snaps.find? (fun s => s.page_url = p.page_url) with
    | none =>
        (snaps ++ [{ company_id := companyId, page_url := p.page_url,
                     content_hash := pageHash, content_text := text,
                     pdf_urls_found := pdfs, status_code := status,
                     is_active := true }],
         evs ++ [{ page_url := p.page_url, change_type := "PAGE_ADDED",
                   diff_summary := "New page discovered: " ++ p.page_url,
                   new_pdf_urls := pdfs,
                   old_hash := none, new_hash := some pageHash }])
    | some existing =>
        let contentChanged := existing.content_hash ≠ pageHash
        let newPdfs := pdfs.filter (fun q => q ∉ existing.pdf_urls_found)
        let evs := if contentChanged then
            evs ++ [{ page_url := p.page_url, change_type := "CONTENT_CHANGED",
                      diff_summary := diffFn existing.content_text text,
                      new_pdf_urls := [],
                      old_hash := some existing.content_hash,
                      new_hash := some pageHash }]
          else evs
        let evs := if !newPdfs.isEmpty then
            evs ++ [{ page_url := p.page_url, change_type := "NEW_DOC_LINKED",
                      diff_summary := toString newPdfs.length ++
                        " new PDF(s) linked: " ++
                        String.intercalate ", " (newPdfs.take 3),
                      new_pdf_urls := newPdfs,
                      old_hash := some existing.content_hash,
                      new_hash := some pageHash }]
          else evs
        let updated := { existing with
          is_active := true, status_code := status,
          content_hash := if contentChanged then pageHash
            else existing.content_hash,
          content_text := if contentChanged then text
            else existing.content_text,
          pdf_urls_found := if !newPdfs.isEmpty then pdfs
            else existing.pdf_urls_found }
        (snaps.map (fun s => if s.page_url = p.page_url then updated else s),
         evs)

/-- `webwatch_agent`, reduced to its persisted snapshot/PageChange effects:
phase 1 handles deletions against the snapshot table, phase 2 folds over the
discovered pages. -/
def webwatchStep (hashFn : String → String)
    (diffFn : String → String → String) (companyId : Nat)
    (snaps : List Snapshot) (pages : List FetchedPage) :
    List Snapshot × List PageChangeEv :=
  let live := pages.map (·.page_url)
  let snaps1 := markDeletedSnaps snaps live
  let evs1 := deletedChanges snaps live
  pages.foldl (processPage hashFn diffFn companyId) (snaps1, evs1)

/-! ## C7: URL normalization (`app/agents/crawl_agent.py`)

The Python standard-library functions the normalizer relies on (`urlparse`,
`parse_qsl`, `urlencode`, `urlunparse`) are modelled below for character
lists.  Percent-coding is modelled byte-per-escape, which coincides with
CPython on ASCII text; every string in this development is ASCII. -/

/-- Split at the first occurrence of `sep`: returns the prefix before it and
`some` remainder, or the whole list and `none` when absent. -/
def splitFirstL (sep : Char) : List Char → List Char × Option (List Char)
  | [] => ([], none)
  | c :: rest =>
    if c = sep then ([], some rest)
    else
      let r := splitFirstL sep rest
      (c :: r.1, r.2)

/-- `_splitnetloc`: net location runs until the first of the characters
`/`, `?`, `#`. -/
def splitNetloc : List Char → List Char × List Char
  | [] => ([], [])
  | c :: rest =>
    if c = '/' ∨ c = '?' ∨ c = '#' then ([], c :: rest)
    else
      let r := splitNetloc rest
      (c :: r.1, r.2)

/-- Split at the last `/`: `some (before, after)` when a slash is present
(`after` contains no slash). -/
def splitLastSlash : List Char → Option (List Char × List Char)
  | [] => none
  | c :: rest =>
    match splitLastSlash rest with
    | some r => some (c :: r.1, r.2)
    | none => if c = '/' then some ([], rest) else none

/-- `urllib.parse._splitparams`: when the raw path contains `;`, split the
params off the last path segment (`find(';', rfind('/'))`). -/
def splitParams (url : List Char) : List Char × List Char :=
  match splitLastSlash url with
  | some r =>
      match splitFirstL ';' r.2 with
      | (a, some b) => (r.1 ++ '/' :: a, b)
      | (_, none) => (url, [])
  | none =>
      match splitFirstL ';' url with
      | (a, some b) => (a, b)
      | (_, none) => (url, [])

/-- Valid scheme characters after the leading letter. -/
def isSchemeChar (c : Char) : Bool :=
  c.isAlphanum || c = '+' || c = '-' || c = '.'

structure SplitUrl where
  schemeRaw : List Char
  netloc : List Char
  rawPath : List Char
  query : List Char
  fragment : List Char
  deriving Repr, DecidableEq

/-- `urllib.parse.urlsplit`: strip leading C0-control-or-space characters,
remove the unsafe bytes tab/CR/LF, take the scheme up to a valid `:`, the
`//netloc` when present, then split the fragment before the query. -/
def pyUrlsplit (cs0 : List Char) : SplitUrl :=
  let cs := (cs0.dropWhile (fun c => c.toNat ≤ 32)).filter
    (fun c => ¬(c = '\t' ∨ c = '\r' ∨ c = '\n'))
  let s :=
    match splitFirstL ':' cs with
    | (a, some b) =>
        if !a.isEmpty ∧ (a.headD 'a').isAlpha ∧ a.all isSchemeChar then (a, b)
        else (([] : List Char), cs)
    | (_, none) => (([] : List Char), cs)
  let n :=
    if startsWithL s.2 ['/', '/'] then splitNetloc (s.2.drop 2)
    else (([] : List Char), s.2)
  let f :=
    match splitFirstL '#' n.2 with
    | (a, some b) => (a, b)
    | (a, none) => (a, ([] : List Char))
  let q :=
    match splitFirstL '?' f.1 with
    | (a, some b) => (a, b)
    | (a, none) => (a, ([] : List Char))
  { schemeRaw := s.1, netloc := n.1, rawPath := q.1, query := q.2,
    fragment := f.2 }

structure UrlParts where
  scheme : List Char
  netloc : List Char
  path : List Char
  params : List Char
  query : List Char
  fragment : List Char
  deriving Repr, DecidableEq

/-- `urllib.parse.urlparse`: `urlsplit` plus the params split (applied only
when the raw path contains `;`), with the scheme lowercased. -/
def pyUrlparse (cs : List Char) : UrlParts :=
  let s := pyUrlsplit cs
  let pp := if s.rawPath.contains ';' then splitParams s.rawPath
            else (s.rawPath, ([] : List Char))
  { scheme := s.schemeRaw.map Char.toLower, netloc := s.netloc,
    path := pp.1, params := pp.2, query := s.query, fragment := s.fragment }

/-- `urllib.parse.uses_netloc`. -/
def usesNetloc : List String :=
  ["", "ftp", "http", "gopher", "nntp", "telnet", "imap", "wais", "file",
   "mms", "https", "shttp", "snews", "prospero", "rtsp", "rtsps", "rtspu",
   "rsync", "svn", "svn+ssh", "sftp", "nfs", "git", "git+ssh", "ws", "wss"]

/-- `urllib.parse.urlunsplit`. -/
def pyUrlunsplit (scheme netloc url query fragment : List Char) :
    List Char :=
  let url :=
    if !netloc.isEmpty ||
        (!scheme.isEmpty ∧ String.mk scheme ∈ usesNetloc ∧
          ¬ startsWithL url ['/', '/']) then
      let url := if !url.isEmpty ∧ ¬ startsWithL url ['/'] then '/' :: url
                 else url
      '/' :: '/' :: (netloc ++ url)
    else url
  let url := if !scheme.isEmpty then scheme ++ ':' :: url else url
  let url := if !query.isEmpty then url ++ '?' :: query else url
  if !fragment.isEmpty then url ++ '#' :: fragment else url

/-- `urllib.parse.urlunparse`. -/
def pyUrlunparse (p : UrlParts) : List Char :=
  let url := if !p.params.isEmpty then p.path ++ ';' :: p.params else p.path
  pyUrlunsplit p.scheme p.netloc url p.query p.fragment

/-- Value of an ASCII hexadecimal digit. -/
def hexVal (c : Char) : Option Nat :=
  if '0' ≤ c ∧ c ≤ '9' then some (c.toNat - '0'.toNat)
  else if 'a' ≤ c ∧ c ≤ 'f' then some (c.toNat - 'a'.toNat + 10)
  else if 'A' ≤ c ∧ c ≤ 'F' then some (c.toNat - 'A'.toNat + 10)
  else none

/-- Percent-decoding (`urllib.parse.unquote` on ASCII): a valid `%XX` escape
decodes to its byte, anything else passes through literally. -/
def percentDecode : List Char → List Char
  | [] => []
  | '%' :: h1 :: h2 :: rest =>
    match hexVal h1, hexVal h2 with
    | some a, some b => Char.ofNat (16 * a + b) :: percentDecode rest
    | _, _ => '%' :: percentDecode (h1 :: h2 :: rest)
  | c :: rest => c :: percentDecode rest

/-- `unquote(s.replace('+', ' '))` as `parse_qsl` applies it to each field. -/
def unquotePlus (cs : List Char) : List Char :=
  percentDecode (cs.map (fun c => if c = '+' then ' ' else c))

/-- `s.split(sep)` (always at least one piece, empty pieces kept). -/
def splitAllChar (sep : Char) : List Char → List (List Char)
  | [] => [[]]
  | c :: rest =>
    match splitAllChar sep rest with
    | [] => [[]]
    | h :: t => if c = sep then [] :: h :: t else (c :: h) :: t

/-- `urllib.parse.parse_qsl(qs, keep_blank_values=True)`: split on `&`, skip
empty fields, split each field at its first `=` (a missing `=` yields a blank
value), and percent-decode both halves. -/
def parseQsl (qs : List Char) : List (List Char × List Char) :=
  (splitAllChar '&' qs).filterMap (fun field =>
    if field.isEmpty then none
    else
      match splitFirstL '=' field with
      | (name, some value) => some (unquotePlus name, unquotePlus value)
      | (name, none) => some (unquotePlus name, []))

/-- The characters `quote_plus` leaves unescaped. -/
def alwaysSafe (c : Char) : Bool :=
  c.isAlpha || c.isDigit || c = '_' || c = '.' || c = '-' || c = '~'

/-- Upper-case hexadecimal digit. -/
def hexDigitUpper (n : Nat) : Char :=
  if n < 10 then Char.ofNat ('0'.toNat + n)
  else Char.ofNat ('A'.toNat + n - 10)

/-- `urllib.parse.quote_plus` on one ASCII character. -/
def quotePlusChar (c : Char) : List Char :=
  if c = ' ' then ['+']
  else if alwaysSafe c then [c]
  else ['%', hexDigitUpper (c.toNat / 16), hexDigitUpper (c.toNat % 16)]

/-- `urllib.parse.quote_plus` on ASCII text. -/
def quotePlus (cs : List Char) : List Char :=
  cs.flatMap quotePlusChar

/-- `urllib.parse.urlencode` on an already-materialized pair list
(`doseq=True` with string values). -/
def urlencodeQsl (l : List (List Char × List Char)) : List Char :=
  List.intercalate ['&']
    (l.map (fun kv => quotePlus kv.1 ++ '=' :: quotePlus kv.2))

/-- The tracking-parameter predicate of `_normalize_url`: the lowercased key
starts with `utm_` or is exactly `session`, `sid`, `phpsessid`. -/
def isTrackingKey (k : List Char) : Bool :=
  let lk := k.map Char.toLower
  startsWithL lk "utm_".toList || lk = "session".toList ||
    lk = "sid".toList || lk = "phpsessid".toList

/-- `re.sub(r"/+$", "", path)`. -/
def dropTrailingSlashes (cs : List Char) : List Char :=
  (cs.reverse.dropWhile (fun c => c = '/')).reverse

/-- `_normalize_url` from `app/agents/crawl_agent.py`. -/
def pyNormalizeUrl (url : String) : String :=
  let value := pyStripL url.toList
  if ¬(startsWithL (value.map Char.toLower) "http://".toList ∨
       startsWithL (value.map Char.toLower) "https://".toList) then ""
  else
    let parsed := pyUrlparse value
    let filtered := (parseQsl parsed.query).filter
      (fun kv => ¬ isTrackingKey kv.1)
    let query := urlencodeQsl filtered
    let cleanedPath := dropTrailingSlashes parsed.path
    String.mk (pyUrlunparse
      { parsed with query := query, fragment := [], path := cleanedPath })

/-- Canonical form: exactly the URLs on which the normalizer acts as the
identity.  The conditions: no surrounding whitespace and none of the unsafe
bytes tab, CR, LF that `urlsplit` removes; a literal lowercase
`http://`/`https://` scheme with a non-empty host; no fragment; a `?` present
only with a non-empty query; the params split rejoins to the raw path; no
trailing slash on the path; the query equal to the canonical re-encoding of
its own parameter list; and no tracking keys. -/
def canonicalUrl (u : String) : Bool :=
  let cs := u.toList
  let s := pyUrlsplit cs
  let p := pyUrlparse cs
  (pyStripL cs == cs) &&
  (cs.all (fun c => ¬(c = '\t' ∨ c = '\r' ∨ c = '\n'))) &&
  (startsWithL cs "http://".toList || startsWithL cs "https://".toList) &&
  (!s.netloc.isEmpty) &&
  (!cs.contains '#') &&
  (!cs.contains '?' || !s.query.isEmpty) &&
  ((if !p.params.isEmpty then p.path ++ ';' :: p.params else p.path) ==
    s.rawPath) &&
  (dropTrailingSlashes p.path == p.path) &&
  (urlencodeQsl (parseQsl s.query) == s.query) &&
  ((parseQsl s.query).all (fun kv => !isTrackingKey kv.1))

/-- `urlparse(url).netloc` as used by `_infer_source_from_url`. -/
def pyUrlNetloc (url : String) : String :=
  String.mk (pyUrlsplit url.toList).netloc

/-! ## C5/C6/C9: Download Agent (`app/agents/download_agent.py`)

The network transfer (`_head_request`, `_download`), the file digest
(`sha256_file`), the filesystem probes (`os.path.exists`, `os.path.getsize`)
and the database-assigned primary keys enter the model as the fields of
`DlEnv`; the decision logic of `_process_one` and the retry book-keeping are
translated from the source. -/

structure RetryRow where
  id : Nat
  company_id : Nat
  document_url : String
  source_domain : String
  reason_code : String
  failure_count : Nat
  status : String
  last_error : String
  last_attempt_at : Option Int
  next_retry_at : Option Int
  created_at : Int
  deriving Repr, DecidableEq

structure SourceMeta where
  source_type : Option String
  source_domain : Option String
  discovery_strategy : Option String
  deriving Repr, DecidableEq

/-- `MAX_RETRY_ATTEMPTS` from `app/agents/download_agent.py`. -/
def MAX_RETRY_ATTEMPTS : Nat := 3

/-- Python truthiness of an optional string (`None` and `""` are falsy). -/
def optTruthy (o : Option String) : Bool :=
  match o with
  | some s => !s.isEmpty
  | none => false

/-- `_infer_source_from_url` from `app/agents/download_agent.py`. -/
def infer_source_from_url (url : String) : SourceMeta :=
  let domain := pyLower (pyUrlNetloc url)
  { source_type := some (if pyContains domain "sec.gov" then "REGULATORY"
      else "WEBSITE"),
    source_domain := some domain,
    discovery_strategy := some "UNKNOWN" }

/-- `_apply_source_metadata` from `app/agents/download_agent.py`. -/
def apply_source_metadata (r : DocRow) (m : SourceMeta) (seenAt : Int) :
    DocRow :=
  let r := if optTruthy m.source_type then { r with source_type := m.source_type }
           else r
  let r := if optTruthy m.source_domain then
             { r with source_domain := m.source_domain }
           else r
  let r := if optTruthy m.discovery_strategy then
             { r with discovery_strategy := m.discovery_strategy }
           else r
  let r := if r.first_seen_at = none then { r with first_seen_at := some seenAt }
           else r
  { r with last_seen_at := some seenAt }

/-- Stable insertion into a list ordered ascending by `created_at`. -/
def insertByCreated (d : DocRow) : List DocRow → List DocRow
  | [] => [d]
  | x :: xs =>
    if x.created_at ≤ d.created_at then x :: insertByCreated d xs
    else d :: x :: xs

/-- `order_by(DocumentRegistry.created_at.asc())` as a stable sort. -/
def sortByCreated (l : List DocRow) : List DocRow :=
  l.foldl (fun acc d => insertByCreated d acc) []

/-- `_resolve_global_dedupe_path` from `app/agents/download_agent.py`:
filter on matching hash, non-null `local_path` and a different id, order by
`created_at` ascending and take the first row; reuse its path only when that
row's path is non-empty and still exists on disk. -/
def resolve_global_dedupe_path (docs : List DocRow)
    (fileExists : String → Bool) (fileHash : String)
    (excludeDocId : Option Nat) : Option String :=
  let q := docs.filter (fun d =>
    d.file_hash == some fileHash && !(d.local_path == none) &&
    (match excludeDocId with
     | some i => d.id != i
     | none => true))
  match (sortByCreated q).head? with
  | none => none
  | some d =>
    match d.local_path with
    | none => none
    | some p =>
      if p.isEmpty then none
      else if fileExists p then some p else none

/-- Modelled from the claim's words (C5), for comparison with the source
definition above: the most-recently-created other row whose `file_hash`
matches and whose `local_path` still exists on disk. -/
def resolve_global_dedupe_path_claimed (docs : List DocRow)
    (fileExists : String → Bool) (fileHash : String)
    (excludeDocId : Option Nat) : Option String :=
  let q := docs.filter (fun d =>
    d.file_hash == some fileHash &&
    (match d.local_path with
     | some p => fileExists p
     | none => false) &&
    (match excludeDocId with
     | some i => d.id != i
     | none => true))
  match (sortByCreated q).getLast? with
  | none => none
  | some d => d.local_path

/-- The newest (largest-id) PENDING/DEAD retry row for a (company, URL):
`order_by(IngestionRetry.id.desc()).first()`. -/
def latestRetryCandidate (retries : List RetryRow) (companyId : Nat)
    (url : String) : Option RetryRow :=
  let q := retries.filter (fun r =>
    r.company_id = companyId ∧ r.document_url = url ∧
    (r.status = "PENDING" ∨ r.status = "DEAD"))
  q.foldl (fun acc r =>
    match acc with
    | none => some r
    | some a => if a.id < r.id then some r else some a) none

structure UpsertRetryResult where
  retries : List RetryRow
  deadLetter : Option ErrorLogRow
  deriving Repr, DecidableEq

/-- `_upsert_retry_entry` from `app/agents/download_agent.py`.  `newId` is the
database-assigned id used when no PENDING/DEAD row exists yet; timestamps are
in minutes, so `timedelta(minutes=backoff)` is an integer addition. -/
def upsert_retry_entry (retries : List RetryRow) (now : Int) (newId : Nat)
    (companyId : Nat) (url reasonCode errorMessage : String) :
    UpsertRetryResult :=
  let found := latestRetryCandidate retries companyId url
  let r0 : RetryRow :=
    match found with
    | some r =>
      { r with failure_count := r.failure_count + 1, reason_code := reasonCode,
               last_error := pyTake errorMessage 2000,
               last_attempt_at := some now }
    | none =>
      { id := newId, company_id := companyId, document_url := url,
        source_domain := pyLower (pyUrlNetloc url), reason_code := reasonCode,
        failure_count := 1, status := "PENDING",
        last_error := pyTake errorMessage 2000, last_attempt_at := some now,
        next_retry_at := none, created_at := now }
  let updated : RetryRow :=
    if MAX_RETRY_ATTEMPTS ≤ r0.failure_count then
      { r0 with status := "DEAD", next_retry_at := none }
    else
      { r0 with status := "PENDING",
                next_retry_at :=
                  some (now + (min 240 (2 ^ r0.failure_count * 5) : Nat)) }
  let dead : Option ErrorLogRow :=
    if MAX_RETRY_ATTEMPTS ≤ r0.failure_count then
      some { company_id := some companyId, document_url := url,
             step := "download", error_type := "DEAD_LETTER",
             error_message := pyTake (reasonCode ++ ": " ++ errorMessage) 2000,
             created_at := now }
    else none
  let retries2 :=
    match found with
    | some r => retries.map (fun x => if x.id = r.id then updated else x)
    | none => retries ++ [updated]
  { retries := retries2, deadLetter := dead }

/-- `_resolve_retry_entry` from `app/agents/download_agent.py`: every
PENDING/DEAD row for the (company, URL) becomes RESOLVED with
`next_retry_at` cleared. -/
def resolve_retry_entry (retries : List RetryRow) (companyId : Nat)
    (url : String) : List RetryRow :=
  retries.map (fun r =>
    if r.company_id = companyId ∧ r.document_url = url ∧
        (r.status = "PENDING" ∨ r.status = "DEAD") then
      { r with status := "RESOLVED", next_retry_at := none }
    else r)

inductive DownloadOutcome where
  | ok (path : String)
  | fail (error_type error_message : String)
  deriving Repr, DecidableEq

/-- The per-URL result dict of `_process_one` (keys absent in a given branch
are `none`). -/
structure DlResult where
  url : String
  status : String
  doc_id : Nat
  local_path : Option String
  deduplicated : Option Bool
  reason : Option String
  deriving Repr, DecidableEq

/-- Environment of one `_process_one` call: HEAD validators (already
collapsed to `(None, None)` on a blocked response or an exception, as
`_head_request` does), the download outcome, the digest/filesystem oracles
and the database-assigned ids. -/
structure DlEnv where
  headEtag : Option String
  headLastMod : Option String
  outcome : DownloadOutcome
  hashOf : String → String
  fileExists : String → Bool
  fileSize : String → Option Int
  now : Int
  newRetryId : Nat
  newDocId : Nat
  sourceMeta : Option SourceMeta

/-- Database/filesystem state threaded through `_process_one`:
`removed` records every `_safe_remove`d path. -/
structure DlState where
  docs : List DocRow
  retries : List RetryRow
  changes : List ChangeLogRow
  errlogs : List ErrorLogRow
  removed : List String

/-- Replace the registry row with the same id. -/
def updateDoc (docs : List DocRow) (r : DocRow) : List DocRow :=
  docs.map (fun d => if d.id = r.id then r else d)

/-- The cheap-skip condition of `_process_one` step 2: a row exists, the HEAD
etag is truthy and both stored validators match. -/
def validatorMatch (existing : Option DocRow)
    (headEtag headLastMod : Option String) : Bool :=
  match existing, headEtag with
  | some ex, some e =>
      !e.isEmpty && ex.etag == some e &&
        ex.last_modified_header == headLastMod
  | _, _ => false

/-- `_process_one` from `app/agents/download_agent.py`. -/
def process_one (st : DlState) (env : DlEnv) (companyId : Nat)
    (url : String) : DlState × Option DlResult :=
  let source_meta := env.sourceMeta.getD (infer_source_from_url url)
  let seen := env.now
  let existing := (st.docs.filter (fun d => d.document_url = url)).head?
  let validatorHit : Bool :=
    validatorMatch existing env.headEtag env.headLastMod
  if validatorHit then
    match existing with
    | some ex =>
      let ex2 := apply_source_metadata
        { ex with status := "UNCHANGED", last_checked := some seen,
                  last_seen_at := some seen } source_meta seen
      ({ st with docs := updateDoc st.docs ex2,
                 retries := resolve_retry_entry st.retries companyId url },
       some { url := url, status := "UNCHANGED", doc_id := ex.id,
              local_path := none, deduplicated := none, reason := none })
    | none => (st, none)
  else
    match env.outcome with
    | .fail etype emsg =>
      let logged : ErrorLogRow :=
        { company_id := some companyId, document_url := url,
          step := "download", error_type := etype, error_message := emsg,
          created_at := seen }
      let st := { st with errlogs := st.errlogs ++ [logged] }
      let ur := upsert_retry_entry st.retries seen env.newRetryId companyId
        url etype emsg
      let st := { st with retries := ur.retries,
                          errlogs := st.errlogs ++ ur.deadLetter.toList }
      match existing with
      | some ex =>
        let ex2 := apply_source_metadata
          { ex with status := "FAILED", last_checked := some seen,
                    last_seen_at := some seen } source_meta seen
        ({ st with docs := updateDoc st.docs ex2 },
         some { url := url, status := "FAILED", doc_id := ex.id,
                local_path := none, deduplicated := none,
                reason := some emsg })
      | none => (st, none)
    | .ok path0 =>
      let newHash := env.hashOf path0
      let dedupeTarget := resolve_global_dedupe_path st.docs env.fileExists
        newHash (existing.map (·.id))
      let deduped : Bool :=
        match dedupeTarget with
        | some t => t != path0
        | none => false
      let path1 :=
        match dedupeTarget with
        | some t => if t ≠ path0 then t else path0
        | none => path0
      let st :=
        if deduped then { st with removed := st.removed ++ [path0] } else st
      match existing with
      | some ex =>
        let hashSame : Bool := ex.file_hash == some newHash
        let st :=
          if hashSame && !deduped then
            { st with removed := st.removed ++ [path1] }
          else st
        let st :=
          if !hashSame then
            { st with changes := st.changes ++
              [{ document_id := ex.id, change_type := "UPDATED",
                 old_hash := ex.file_hash, new_hash := some newHash,
                 detected_at := seen }] }
          else st
        let ex2 :=
          if hashSame then { ex with status := "UNCHANGED" }
          else
            { ex with status := "UPDATED", file_hash := some newHash,
                      local_path := some path1,
                      file_size_bytes := env.fileSize path1,
                      metadata_extracted := false }
        let ex3 := apply_source_metadata
          { ex2 with etag := env.headEtag,
                     last_modified_header := env.headLastMod,
                     last_checked := some seen, last_seen_at := some seen }
          source_meta seen
        ({ st with docs := updateDoc st.docs ex3,
                   retries := resolve_retry_entry st.retries companyId url },
         some { url := url, status := ex3.status, doc_id := ex.id,
                local_path := ex3.local_path, deduplicated := some deduped,
                reason := none })
      | none =>
        let record : DocRow :=
          { id := env.newDocId, company_id := companyId, document_url := url,
            file_hash := some newHash, etag := env.headEtag,
            last_modified_header := env.headLastMod,
            local_path := some path1, doc_type := "Unknown",
            file_size_bytes := env.fileSize path1, status := "NEW",
            metadata_extracted := false, first_page_text := none,
            language := none, classifier_confidence := none,
            classifier_version := none, needs_review := false,
            source_type := source_meta.source_type,
            source_domain := source_meta.source_domain,
            discovery_strategy := source_meta.discovery_strategy,
            first_seen_at := some seen, last_seen_at := some seen,
            last_checked := some seen, created_at := seen }
        ({ st with docs := st.docs ++ [record],
                   changes := st.changes ++
                     [{ document_id := env.newDocId, change_type := "NEW",
                        old_hash := none, new_hash := some newHash,
                        detected_at := seen }],
                   retries := resolve_retry_entry st.retries companyId url },
         some { url := url, status := "NEW", doc_id := env.newDocId,
                local_path := some path1, deduplicated := some deduped,
                reason := none })

/-! ## C1: Extract Agent (`app/agents/extract_agent.py`)

The LLM call (`_call_azure`/`_call_openai` plus `_parse_json`) enters the
model as an oracle giving each attempt's parsed result; `none` covers both a
raised exception and a `None` return.  The deterministic fallback helpers
(`_merge_fallback_metadata`, `_derive_headline`, `_derive_date`,
`_derive_topics`) and the persistence (`_upsert_metadata`) are translated
from the source. -/

/-- A JSON-ish value as the extraction payload carries it. -/
inductive JVal where
  | s (v : String)
  | n (v : Int)
  | b (v : Bool)
  | listv (v : List String)
  | nullv
  deriving Repr, DecidableEq

/-- A parsed LLM payload: a key/value association (a Python dict). -/
abbrev Meta := List (String × JVal)

/-- Python truthiness of a JSON value. -/
def jTruthy : JVal → Bool
  | .s v => !v.isEmpty
  | .n v => v != 0
  | .b v => v
  | .listv v => !v.isEmpty
  | .nullv => false

/-- `d.get(k)`. -/
def metaGet (m : Meta) (k : String) : Option JVal :=
  (m.find? (fun kv => kv.1 == k)).map (·.2)

/-- Truthiness of `d.get(k)` (`None` when absent). -/
def metaTruthy (m : Meta) (k : String) : Bool :=
  match metaGet m k with
  | some v => jTruthy v
  | none => false

/-- `d[k] = v`. -/
def metaSet (m : Meta) (k : String) (v : JVal) : Meta :=
  if (m.find? (fun kv => kv.1 == k)).isSome then
    m.map (fun kv => if kv.1 == k then (k, v) else kv)
  else m ++ [(k, v)]

/-- `d.setdefault(k, v)`. -/
def metaSetDefault (m : Meta) (k : String) (v : JVal) : Meta :=
  if (m.find? (fun kv => kv.1 == k)).isSome then m else m ++ [(k, v)]

/-- `str.splitlines` for the line boundaries the agent's ASCII inputs can
contain (`\n`, `\r`, `\r\n`); no trailing empty piece. -/
def splitLinesGo (acc : List Char) : List Char → List (List Char)
  | [] => [acc.reverse]
  | '\r' :: '\n' :: rest =>
    acc.reverse :: (if rest.isEmpty then [] else splitLinesGo [] rest)
  | '\n' :: rest =>
    acc.reverse :: (if rest.isEmpty then [] else splitLinesGo [] rest)
  | '\r' :: rest =>
    acc.reverse :: (if rest.isEmpty then [] else splitLinesGo [] rest)
  | c :: rest => splitLinesGo (c :: acc) rest

/-- `text.splitlines()`. -/
def splitLines (s : String) : List String :=
  if s.isEmpty then [] else (splitLinesGo [] s.toList).map String.mk

/-- `re.sub(r"[_\-]+", " ", s)`: collapse each run of `_`/`-` to one space. -/
def squashRunsGo (prevSep : Bool) : List Char → List Char
  | [] => []
  | c :: rest =>
    if c = '_' ∨ c = '-' then
      (if prevSep then [] else [' ']) ++ squashRunsGo true rest
    else c :: squashRunsGo false rest

/-- `_derive_headline` from `app/agents/extract_agent.py`. -/
def derive_headline (documentUrl : String) (text : String) : String :=
  match ((splitLines text).map pyStrip).find? (fun l => 15 < l.length) with
  | some l => pyTake l 120
  | none =>
    let path := String.mk (pyUrlparse documentUrl.toList).path
    let fileName0 := pyLastSplit path "/"
    let fileName0 := if fileName0.isEmpty then "Document" else fileName0
    let fileName1 := pyReplace fileName0 ".pdf" ""
    let fileName2 := pyStrip (String.mk (squashRunsGo false fileName1.toList))
    let r := pyTake fileName2 120
    if r.isEmpty then "Document metadata extracted" else r

/-- `\w` for the agent's ASCII inputs. -/
def isWordChar (c : Char) : Bool :=
  c.isAlphanum || c = '_'

def digit19 (c : Char) : Bool := '1' ≤ c ∧ c ≤ '9'

def sepDash (c : Char) : Bool := c = '-' ∨ c = '/'

/-- `(0[1-9]|1[0-2])`. -/
def monthOk (m1 m2 : Char) : Bool :=
  (m1 = '0' ∧ digit19 m2) ∨ (m1 = '1' ∧ (m2 = '0' ∨ m2 = '1' ∨ m2 = '2'))

/-- `(0[1-9]|[12]\d|3[01])`. -/
def dayOk (d1 d2 : Char) : Bool :=
  (d1 = '0' ∧ digit19 d2) ∨ ((d1 = '1' ∨ d1 = '2') ∧ d2.isDigit) ∨
    (d1 = '3' ∧ (d2 = '0' ∨ d2 = '1'))

/-- The trailing `\b` of the date patterns. -/
def boundaryAfter : List Char → Bool
  | [] => true
  | c :: _ => ¬ isWordChar c

/-- The first date pattern of `_derive_date` (`year sep month sep day` with
word boundaries, each sep a dash or slash) matched at the head of the list,
returning the `Y-M-D` rendering. -/
def pat1At : List Char → Option String
  | '2' :: '0' :: y3 :: y4 :: s1 :: m1 :: m2 :: s2 :: d1 :: d2 :: rest =>
    if y3.isDigit ∧ y4.isDigit ∧ sepDash s1 ∧ monthOk m1 m2 ∧ sepDash s2 ∧
        dayOk d1 d2 ∧ boundaryAfter rest then
      some (String.mk ['2', '0', y3, y4] ++ "-" ++ String.mk [m1, m2] ++ "-" ++
        String.mk [d1, d2])
    else none
  | _ => none

/-- The second date pattern of `_derive_date` (`day sep month sep year` with
word boundaries) matched at the head, returning the `Y-M-D` rendering. -/
def pat2At : List Char → Option String
  | d1 :: d2 :: s1 :: m1 :: m2 :: s2 :: '2' :: '0' :: y3 :: y4 :: rest =>
    if dayOk d1 d2 ∧ sepDash s1 ∧ monthOk m1 m2 ∧ sepDash s2 ∧ y3.isDigit ∧
        y4.isDigit ∧ boundaryAfter rest then
      some (String.mk ['2', '0', y3, y4] ++ "-" ++ String.mk [m1, m2] ++ "-" ++
        String.mk [d1, d2])
    else none
  | _ => none

/-- `\b(20\d{2})\b` at the head. -/
def pat3At : List Char → Option String
  | '2' :: '0' :: y3 :: y4 :: rest =>
    if y3.isDigit ∧ y4.isDigit ∧ boundaryAfter rest then
      some (String.mk ['2', '0', y3, y4])
    else none
  | _ => none

/-- `re.search` for a pattern starting with `\b` followed by a word
character: scan positions left to right, matching only at word boundaries. -/
def searchPat (patAt : List Char → Option String) :
    Option Char → List Char → Option String
  | _, [] => none
  | prev, c :: rest =>
    if (match prev with
        | none => true
        | some p => ¬ isWordChar p) then
      match patAt (c :: rest) with
      | some r => some r
      | none => searchPat patAt (some c) rest
    else searchPat patAt (some c) rest

/-- `_derive_date` from `app/agents/extract_agent.py`. -/
def derive_date (text url : String) : Option String :=
  match searchPat pat1At none text.toList with
  | some d => some d
  | none =>
    match searchPat pat2At none text.toList with
    | some d => some d
    | none =>
      match searchPat pat3At none (url ++ " " ++ pyTake text 500).toList with
      | some y => some (y ++ "-01-01")
      | none => none

/-- The topic bank of `_derive_topics`. -/
def topicBank : List String :=
  ["sustainability", "governance", "compliance", "regulatory", "board",
   "risk", "employee", "diversity", "climate", "esg", "product", "legal"]

/-- `_derive_topics` from `app/agents/extract_agent.py`. -/
def derive_topics (text : String) : List String :=
  (topicBank.filter (fun t => pyContains (pyLower text) t)).take 5

/-- `_merge_fallback_metadata` from `app/agents/extract_agent.py`. -/
def merge_fallback_metadata (doc : DocRow) (data : Meta) (fullText : String)
    (isFinancial : Bool) : Meta :=
  let snippet := pyTake fullText 4000
  let m := data
  let m := if !metaTruthy m "document_category" then
      metaSet m "document_category"
        (.s (if isFinancial then "FINANCIAL" else "NON_FINANCIAL"))
    else m
  let m := if !metaTruthy m "document_type" then
      metaSet m "document_type"
        (.s (pyLastSplit
          (if doc.doc_type.isEmpty then "UNKNOWN|OTHER" else doc.doc_type)
          "|"))
    else m
  let m := if !metaTruthy m "language" then
      metaSet m "language"
        (.s (match doc.language with
             | some l => if !l.isEmpty && l != "Unknown" then l else "English"
             | none => "English"))
    else m
  let m := if !metaTruthy m "headline" then
      metaSet m "headline" (.s (derive_headline doc.document_url snippet))
    else m
  let m := if !metaTruthy m "filing_date" then
      metaSet m "filing_date"
        (match derive_date snippet doc.document_url with
         | some d => .s d
         | none => .nullv)
    else m
  let m := if metaGet m "document_category" = some (.s "NON_FINANCIAL") then
      metaSetDefault (metaSetDefault m "key_topics"
        (.listv (derive_topics snippet))) "certifications" (.listv [])
    else m
  let m := if metaGet m "document_category" = some (.s "FINANCIAL") then
      metaSetDefault (metaSetDefault m "audit_status" (.s "Unknown"))
        "is_preliminary" (.b false)
    else m
  m

/-- A `metadata_records` row as `_upsert_metadata` populates it. -/
structure MetaRecord where
  document_id : Nat
  headline : Option JVal
  filing_date : Option JVal
  document_type : Option JVal
  language : Option JVal
  period_end_date : Option JVal
  income_statement : Bool
  preliminary_document : Bool
  audit_flag : Bool
  note_flag : Bool
  filing_data_source : JVal
  raw_llm_response : Meta
  deriving Repr, DecidableEq

/-- `_upsert_metadata` from `app/agents/extract_agent.py`: find-or-create the
record for the document and overwrite every mapped field. -/
def upsert_metadata (recs : List MetaRecord) (docId : Nat) (data : Meta) :
    List MetaRecord :=
  let newRec : MetaRecord :=
    { document_id := docId,
      headline := metaGet data "headline",
      filing_date := metaGet data "filing_date",
      document_type := metaGet data "document_type",
      language := metaGet data "language",
      period_end_date := metaGet data "period_end_date",
      income_statement :=
        metaTruthy data "revenue" || metaTruthy data "net_profit",
      preliminary_document :=
        (match metaGet data "is_preliminary" with
         | some v => jTruthy v
         | none => false),
      audit_flag := metaGet data "audit_status" = some (.s "Audited"),
      note_flag :=
        metaTruthy data "financial_notes" || metaTruthy data "key_findings",
      filing_data_source :=
        if metaTruthy data "regulatory_body" then
          (metaGet data "regulatory_body").getD .nullv
        else .s "Company IR Site",
      raw_llm_response := data }
  if (recs.find? (fun r => r.document_id == docId)).isSome then
    recs.map (fun r => if r.document_id == docId then newRec else r)
  else recs ++ [newRec]

/-- The attempt loop of `_extract_with_llm`: up to 3 attempts; an attempt
counts as failed when the oracle yields `none` (an exception or a `None`
return) or a falsy (empty) dict. -/
def firstTruthyAttempt (attempts : Nat → Option Meta) :
    Nat → Nat → Option Meta
  | 0, _ => none
  | fuel + 1, i =>
    match attempts i with
    | some m => if !m.isEmpty then some m else firstTruthyAttempt attempts fuel (i + 1)
    | none => firstTruthyAttempt attempts fuel (i + 1)

/-- `_extract_with_llm` from `app/agents/extract_agent.py`. -/
def extract_with_llm (attempts : Nat → Option Meta) : Option Meta :=
  firstTruthyAttempt attempts 3 0

/-- One `downloaded_docs` entry as the extract loop reads it. -/
structure DownloadedDoc where
  doc_id : Option Nat
  full_text : String
  deriving Repr, DecidableEq

/-- The database state the Extract Agent touches. -/
structure ExtractDb where
  docs : List DocRow
  metas : List MetaRecord
  deriving Repr, DecidableEq

/-- One iteration of the `extract_agent` loop for one `downloaded_docs`
entry (`attempts` is the LLM oracle for this document): entries without a
truthy `doc_id` or without text are skipped; otherwise the merged metadata is
always upserted and `metadata_extracted` set. -/
def extract_one (db : ExtractDb) (info : DownloadedDoc)
    (attempts : Nat → Option Meta) : ExtractDb :=
  match info.doc_id with
  | none => db
  | some docId =>
    if docId = 0 ∨ info.full_text.isEmpty then db
    else
      match (db.docs.filter (fun d => d.id = docId)).head? with
      | none => db
      | some doc =>
        let isFinancial := startsWithL doc.doc_type.toList "FINANCIAL".toList
        let metadata := (extract_with_llm attempts).getD []
        let merged := merge_fallback_metadata doc metadata info.full_text
          isFinancial
        { docs := db.docs.map (fun d =>
            if d.id = docId then { d with metadata_extracted := true } else d),
          metas := upsert_metadata db.metas docId merged }

/-- `extract_agent` from `app/agents/extract_agent.py`: fold the per-document
step over `downloaded_docs`; `attempts i` is the LLM oracle for the i-th
entry. -/
def extract_agent (db : ExtractDb) (downloaded : List DownloadedDoc)
    (attempts : Nat → Nat → Option Meta) : ExtractDb :=
  (downloaded.enum).foldl
    (fun acc entry => extract_one acc entry.2 (attempts entry.1)) db

/-! ## C2: Excel Writer Agent (`app/agents/excel_agent.py`)

The workbook is modelled as its saved path plus the ordered sheet list; each
sheet carries its name, header row and data rows (cells rendered as text;
numeric cells through `toString`).  `dateStr` stands for
`datetime.utcnow().strftime("%Y%m%d_%H%M")`, `nowStr` for the report
timestamp rendering, and `cutoff` for `utcnow() - timedelta(hours=24)`. -/

structure Sheet where
  name : String
  header : List String
  rows : List (List String)
  deriving Repr, DecidableEq

structure ExcelDb where
  companies : List CompanyRow
  docs : List DocRow
  metas : List MetaRecord
  changes : List ChangeLogRow
  pchanges : List PageChangeRow
  errors : List ErrorLogRow
  deriving Repr, DecidableEq

/-- Render a JSON value into a cell (Python would place the raw value). -/
def cellOfJVal : JVal → String
  | .s v => v
  | .n v => toString v
  | .b v => if v then "True" else "False"
  | .listv v => String.intercalate ", " v
  | .nullv => ""

/-- Render an optional metadata field (empty when the record is absent). -/
def cellOfOptJVal : Option JVal → String
  | some v => cellOfJVal v
  | none => ""

/-- `raw = meta.raw_llm_response if meta and meta.raw_llm_response else {}`. -/
def rawOf (meta : Option MetaRecord) : Meta :=
  match meta with
  | some m => if !m.raw_llm_response.isEmpty then m.raw_llm_response else []
  | none => []

/-- `raw.get(k, "")` rendered into a cell. -/
def rawCell (raw : Meta) (k : String) : String :=
  match metaGet raw k with
  | some v => cellOfJVal v
  | none => ""

/-- Generic stable insertion sort. -/
def insertSorted (le : α → α → Bool) (d : α) : List α → List α
  | [] => [d]
  | x :: xs => if le x d then x :: insertSorted le d xs else d :: x :: xs

def sortedBy (le : α → α → Bool) (l : List α) : List α :=
  l.foldl (fun acc d => insertSorted le d acc) []

/-- `doc_type LIKE 'FINANCIAL%'`. -/
def docTypeLikeFin (d : DocRow) : Bool :=
  startsWithL d.doc_type.toList "FINANCIAL".toList

/-- `doc_type LIKE 'NON_FINANCIAL%'`. -/
def docTypeLikeNonFin (d : DocRow) : Bool :=
  startsWithL d.doc_type.toList "NON_FINANCIAL".toList

/-- The doc/meta/company join of the two document sheets, ordered by company
name ascending then `created_at` descending. -/
def docJoinRows (db : ExcelDb) (typeFilter : DocRow → Bool) :
    List (DocRow × Option MetaRecord × CompanyRow) :=
  let joined := (db.docs.filter typeFilter).filterMap (fun d =>
    match (db.companies.filter (fun c => c.id = d.company_id)).head? with
    | some c =>
        some (d, (db.metas.filter (fun m => m.document_id = d.id)).head?, c)
    | none => none)
  sortedBy (fun a b =>
    a.2.2.company_name < b.2.2.company_name ||
      (a.2.2.company_name == b.2.2.company_name &&
        b.1.created_at ≤ a.1.created_at)) joined

/-- `_sheet_summary`. -/
def sheet_summary (db : ExcelDb) (nowStr : String) (cutoff : Int) : Sheet :=
  let companies := (db.companies.filter (·.active)).length
  let totalDocs := db.docs.length
  let finDocs := (db.docs.filter docTypeLikeFin).length
  let nonfinDocs := (db.docs.filter docTypeLikeNonFin).length
  let new24 := (db.changes.filter (fun c => cutoff ≤ c.detected_at)).length
  let errors24 := (db.errors.filter (fun e => cutoff ≤ e.created_at)).length
  { name := "📊 Summary", header := ["Metric", "Value"],
    rows :=
      [["🏢 Active Companies", toString companies],
       ["📄 Total Documents", toString totalDocs],
       ["💰 Financial Documents", toString finDocs],
       ["📋 Non-Financial Documents", toString nonfinDocs],
       ["🔔 Changes (last 24h)", toString new24],
       ["❌ Errors (last 24h)", toString errors24],
       ["📅 Report Generated", nowStr]] }

/-- `_sheet_financial`. -/
def sheet_financial (db : ExcelDb) : Sheet :=
  { name := "💰 Financial Docs",
    header := ["Company", "Document Type", "Headline", "Filing Date",
      "Period End", "Fiscal Year", "Fiscal Quarter", "Currency", "Revenue",
      "Net Profit", "EBITDA", "EPS", "Audit Status", "Preliminary",
      "Language", "URL", "Local Path"],
    rows := (docJoinRows db docTypeLikeFin).map (fun row =>
      let doc := row.1
      let meta := row.2.1
      let company := row.2.2
      let raw := rawOf meta
      [company.company_name,
       pyLastSplit doc.doc_type "|",
       (match meta with
        | some m => cellOfOptJVal m.headline
        | none => ""),
       (match meta with
        | some m => cellOfOptJVal m.filing_date
        | none => ""),
       (match meta with
        | some m => cellOfOptJVal m.period_end_date
        | none => ""),
       rawCell raw "fiscal_year", rawCell raw "fiscal_quarter",
       rawCell raw "currency", rawCell raw "revenue",
       rawCell raw "net_profit", rawCell raw "ebitda", rawCell raw "eps",
       rawCell raw "audit_status", rawCell raw "is_preliminary",
       (match meta with
        | some m => cellOfOptJVal m.language
        | none => ""),
       doc.document_url, doc.local_path.getD ""]) }

/-- `_sheet_non_financial`. -/
def sheet_non_financial (db : ExcelDb) : Sheet :=
  { name := "📋 Non-Financial Docs",
    header := ["Company", "Document Type", "Headline", "Filing Date",
      "Regulatory Body", "Compliance Period", "Document Scope",
      "Target Audience", "Key Topics", "Key Findings", "Certifications",
      "Language", "URL"],
    rows := (docJoinRows db docTypeLikeNonFin).map (fun row =>
      let doc := row.1
      let meta := row.2.1
      let company := row.2.2
      let raw := rawOf meta
      [company.company_name,
       pyLastSplit doc.doc_type "|",
       (match meta with
        | some m => cellOfOptJVal m.headline
        | none => ""),
       (match meta with
        | some m => cellOfOptJVal m.filing_date
        | none => ""),
       rawCell raw "regulatory_body", rawCell raw "compliance_period",
       rawCell raw "document_scope", rawCell raw "target_audience",
       rawCell raw "key_topics", rawCell raw "key_findings",
       rawCell raw "certifications",
       (match meta with
        | some m => cellOfOptJVal m.language
        | none => ""),
       doc.document_url]) }

/-- The change/doc/company join of the 24h-changes sheet, newest first. -/
def changeJoinRows (db : ExcelDb) (cutoff : Int) :
    List (ChangeLogRow × DocRow × CompanyRow) :=
  let joined := (db.changes.filter (fun c => cutoff ≤ c.detected_at)).filterMap
    (fun chg =>
      match (db.docs.filter (fun d => d.id = chg.document_id)).head? with
      | some d =>
        match (db.companies.filter (fun c => c.id = d.company_id)).head? with
        | some c => some (chg, d, c)
        | none => none
      | none => none)
  sortedBy (fun a b => b.1.detected_at ≤ a.1.detected_at) joined

/-- `_sheet_24h_changes`: only header plus one row per joined ChangeLog row —
there is no placeholder row for the empty case. -/
def sheet_24h_changes (db : ExcelDb) (cutoff : Int) : Sheet :=
  { name := "🔔 24h Changes",
    header := ["Company", "Change Type", "Doc Category", "Doc Type", "URL",
      "Old Hash", "New Hash", "Detected At"],
    rows := (changeJoinRows db cutoff).map (fun row =>
      let chg := row.1
      let doc := row.2.1
      let company := row.2.2
      let parts := pySplit doc.doc_type "|"
      [company.company_name, chg.change_type,
       (if 1 < parts.length then parts.headD "" else "UNKNOWN"),
       parts.getLastD "", doc.document_url, chg.old_hash.getD "",
       chg.new_hash.getD "", pyTake (toString chg.detected_at) 19]) }

/-- `_sheet_webwatch`: only header plus one row per joined PageChange row —
no placeholder row for the empty case. -/
def sheet_webwatch (db : ExcelDb) (cutoff : Int) : Sheet :=
  let joined := (db.pchanges.filter
    (fun p => cutoff ≤ p.detected_at)).filterMap (fun pc =>
      match (db.companies.filter (fun c => c.id = pc.company_id)).head? with
      | some c => some (pc, c)
      | none => none)
  let ordered := sortedBy (fun a b => b.1.detected_at ≤ a.1.detected_at) joined
  { name := "🌐 WebWatch",
    header := ["Company", "Page URL", "Change Type", "Diff Summary",
      "New PDFs Found", "Detected At"],
    rows := ordered.map (fun row =>
      [row.2.company_name, row.1.page_url, row.1.change_type,
       row.1.diff_summary, toString row.1.new_pdf_urls.length,
       pyTake (toString row.1.detected_at) 19]) }

/-- `_sheet_metadata_raw`. -/
def sheet_metadata_raw (db : ExcelDb) : Sheet :=
  let joined := db.metas.filterMap (fun m =>
    match (db.docs.filter (fun d => d.id = m.document_id)).head? with
    | some d =>
      match (db.companies.filter (fun c => c.id = d.company_id)).head? with
      | some c => some (m, d, c)
      | none => none
    | none => none)
  { name := "🔬 Raw Metadata",
    header := ["Company", "Doc Type", "Headline", "Filing Date", "Period End",
      "Language", "Audit", "Preliminary", "Has Income Stmt", "Notes",
      "Source", "URL"],
    rows := joined.map (fun row =>
      let meta := row.1
      let doc := row.2.1
      [row.2.2.company_name, pyLastSplit doc.doc_type "|",
       cellOfOptJVal meta.headline, cellOfOptJVal meta.filing_date,
       cellOfOptJVal meta.period_end_date, cellOfOptJVal meta.language,
       (if meta.audit_flag then "Yes" else "No"),
       (if meta.preliminary_document then "Yes" else "No"),
       (if meta.income_statement then "Yes" else "No"),
       (if meta.note_flag then "Yes" else "No"),
       cellOfJVal meta.filing_data_source, doc.document_url]) }

/-- `_sheet_errors` (newest 500). -/
def sheet_errors (db : ExcelDb) : Sheet :=
  let ordered := sortedBy (fun a b => b.created_at ≤ a.created_at) db.errors
  { name := "❌ Errors",
    header := ["Company", "Step", "Error Type", "Error Message",
      "Document URL", "Created At"],
    rows := (ordered.take 500).map (fun err =>
      [(match err.company_id with
        | some cid =>
          match (db.companies.filter (fun c => c.id = cid)).head? with
          | some c => c.company_name
          | none => "N/A"
        | none => "N/A"),
       err.step, err.error_type, pyTake err.error_message 200,
       err.document_url, pyTake (toString err.created_at) 19]) }

structure Workbook where
  out_path : String
  sheets : List Sheet
  deriving Repr, DecidableEq

/-- `excel_agent` from `app/agents/excel_agent.py`: one fleet-wide workbook
saved under `{base}/reports/finwatch_{date}.xlsx` (after the
`/app/downloads → downloads` rewrite), holding the seven sheets in source
order. -/
def excel_agent (db : ExcelDb) (baseDownloadPath : String)
    (dateStr nowStr : String) (cutoff : Int) : Workbook :=
  let reportDir :=
    (pyReplace baseDownloadPath "/app/downloads" "downloads") ++ "/reports"
  { out_path := reportDir ++ "/finwatch_" ++ dateStr ++ ".xlsx",
    sheets := [sheet_summary db nowStr cutoff, sheet_financial db,
      sheet_non_financial db, sheet_24h_changes db cutoff,
      sheet_webwatch db cutoff, sheet_metadata_raw db, sheet_errors db] }

/-- The output path the claim (C2) describes:
`{base_folder}/{company_slug}/metadata_{company_slug}_{YYYY-MM-DD}.xlsx`. -/
def claimedExcelPath (baseFolder slug dayStr : String) : String :=
  baseFolder ++ "/" ++ slug ++ "/metadata_" ++ slug ++ "_" ++ dayStr ++
    ".xlsx"

/-! ## Concrete fixtures for counterexamples and witnesses -/

/-- A blank registry row to build fixtures from. -/
def blankDoc : DocRow :=
  { id := 0, company_id := 0, document_url := "", file_hash := none,
    etag := none, last_modified_header := none, local_path := none,
    doc_type := "Unknown", file_size_bytes := none, status := "NEW",
    metadata_extracted := false, first_page_text := none, language := none,
    classifier_confidence := none, classifier_version := none,
    needs_review := false, source_type := none, source_domain := none,
    discovery_strategy := none, first_seen_at := none, last_seen_at := none,
    last_checked := none, created_at := 0 }

def exC1Doc : DocRow :=
  { blankDoc with
      id := 1, company_id := 1,
      document_url := "https://e.com/r.pdf",
      file_hash := some "h", local_path := some "downloads/acme/Other/r.pdf",
      doc_type := "NON_FINANCIAL|OTHER", file_size_bytes := some 10 }

def exC1Db : ExtractDb := { docs := [exC1Doc], metas := [] }

def exC1Info : DownloadedDoc := { doc_id := some 1, full_text := "x" }

def exC2Company : CompanyRow :=
  { id := 1, company_name := "Acme", company_slug := "acme",
    website_url := "https://acme.example", crawl_depth := 3, active := true }

def exC2Db : ExcelDb :=
  { companies := [exC2Company], docs := [], metas := [], changes := [],
    pchanges := [], errors := [] }

/-- An injective stand-in for `sha256_text` on the concrete WebWatch
scenario (hash equality is only ever tested between page texts, and the
scenario reuses the identical text). -/
def exHash : String → String := fun s => "hash:" ++ s

def exDiff : String → String → String := fun _ _ => ""

def exPageUrl : String := "https://a.com/investors"

def exPage : FetchedPage :=
  { page_url := exPageUrl, content := some ("hello", ["https://a.com/d.pdf"], 200) }

def wwPass1 : List Snapshot × List PageChangeEv :=
  webwatchStep exHash exDiff 1 [] [exPage]

def wwPass2 : List Snapshot × List PageChangeEv :=
  webwatchStep exHash exDiff 1 wwPass1.1 []

def wwPass3 : List Snapshot × List PageChangeEv :=
  webwatchStep exHash exDiff 1 wwPass2.1 [exPage]

def exC5DocA : DocRow :=
  { blankDoc with
      id := 1, company_id := 1,
      document_url := "https://e.com/a.pdf", file_hash := some "h1",
      local_path := some "downloads/x/a.pdf", created_at := 1 }

def exC5DocB : DocRow :=
  { blankDoc with
      id := 2, company_id := 1,
      document_url := "https://e.com/b.pdf", file_hash := some "h1",
      local_path := some "downloads/x/b.pdf", created_at := 2 }

def exC5Env : DlEnv :=
  { headEtag := none, headLastMod := none,
    outcome := .ok "downloads/x/c.pdf.dl", hashOf := fun _ => "h1",
    fileExists := fun _ => true, fileSize := fun _ => some 7, now := 50,
    newRetryId := 10, newDocId := 10, sourceMeta := none }

def exC5St : DlState :=
  { docs := [exC5DocA, exC5DocB], retries := [], changes := [],
    errlogs := [], removed := [] }

def exC6DeadRow : RetryRow :=
  { id := 1, company_id := 1, document_url := "https://e.com/a.pdf",
    source_domain := "e.com", reason_code := "DOWNLOAD_FAILED",
    failure_count := 3, status := "DEAD", last_error := "boom",
    last_attempt_at := some 0, next_retry_at := none, created_at := 0 }

def exC9Doc : DocRow :=
  { blankDoc with
      id := 1, company_id := 1,
      document_url := "https://e.com/a.pdf", file_hash := some "h1",
      etag := some "E1", last_modified_header := some "LM",
      local_path := some "downloads/x/a.pdf", file_size_bytes := some 5 }

def exC9St : DlState :=
  { docs := [exC9Doc], retries := [], changes := [], errlogs := [],
    removed := [] }

def exC9Env : DlEnv :=
  { headEtag := some "E1", headLastMod := some "LM",
    outcome := .ok "downloads/x/a2.pdf", hashOf := fun _ => "h1",
    fileExists := fun _ => false, fileSize := fun _ => some 5, now := 60,
    newRetryId := 11, newDocId := 11, sourceMeta := none }

/-! # Theorems -/

/-! ## C10 -/

theorem requestAttempts_error_from_final (t : Nat → AttemptOutcome)
    (retries : Nat) :
    ∀ k attempt, retries - attempt ≤ k → attempt < retries →
      ∀ e, requestAttempts t retries attempt = .error e →
        t (retries - 1) = .error e := by
  intro k
  induction k with
  | zero => intro attempt hk hlt; omega
  | succ k ih =>
    intro attempt hk hlt e heq
    rw [requestAttempts] at heq
    rw [dif_pos hlt] at heq
    cases hTrans : t attempt with
    | ok r =>
      rw [hTrans] at heq
      dsimp only at heq
      by_cases hc : r.status ∈ RETRYABLE_STATUSES ∧ attempt < retries - 1
      · rw [if_pos hc] at heq
        exact ih (attempt + 1) (by omega) (by omega) e heq
      · rw [if_neg hc] at heq
        cases heq
    | error e0 =>
      rw [hTrans] at heq
      dsimp only at heq
      by_cases hge : attempt ≥ retries - 1
      · rw [if_pos hge] at heq
        have he : e0 = e := by
          cases heq
          rfl
        have hat : attempt = retries - 1 := by omega
        rw [← hat, hTrans, he]
      · rw [if_neg hge] at heq
        exact ih (attempt + 1) (by omega) (by omega) e heq

theorem requestAttempts_final_ok (t : Nat → AttemptOutcome) (retries : Nat) :
    ∀ k attempt, retries - attempt ≤ k → attempt < retries →
      (∀ i, attempt ≤ i → i < retries - 1 → continuesLoop (t i) = true) →
      ∀ r, t (retries - 1) = .ok r →
        requestAttempts t retries attempt = .ok r := by
  intro k
  induction k with
  | zero => intro attempt hk hlt; omega
  | succ k ih =>
    intro attempt hk hlt hmid r hfin
    rw [requestAttempts, dif_pos hlt]
    by_cases hstep : attempt < retries - 1
    · have hcont := hmid attempt (Nat.le_refl _) hstep
      cases hTrans : t attempt with
      | ok r0 =>
        have hmem : r0.status ∈ RETRYABLE_STATUSES := by
          rw [hTrans] at hcont
          simpa [continuesLoop] using hcont
        dsimp only
        rw [if_pos ⟨hmem, hstep⟩]
        exact ih (attempt + 1) (by omega) (by omega)
          (fun i h1 h2 => hmid i (by omega) h2) r hfin
      | error e0 =>
        dsimp only
        rw [if_neg (by omega : ¬ attempt ≥ retries - 1)]
        exact ih (attempt + 1) (by omega) (by omega)
          (fun i h1 h2 => hmid i (by omega) h2) r hfin
    · have hat : attempt = retries - 1 := by omega
      rw [hat, hfin]
      dsimp only
      rw [if_neg (by omega : ¬(r.status ∈ RETRYABLE_STATUSES ∧
        retries - 1 < retries - 1))]

/-- C10: `request_with_retries` never raises solely because of a retryable
HTTP status.  Whenever the transport yields a response on the final attempt
that response is returned even when its status is retryable (provided every
earlier attempt either raised or returned a retryable response, i.e. did not
already finish the call), and the helper raises only when the final attempt
itself raised a network-level exception. -/
theorem C10_request_with_retries_returns_final_response
    (t : Nat → AttemptOutcome) (retries : Nat) (h1 : 1 ≤ retries) :
    (∀ e, request_with_retries t retries = .error e →
      t (retries - 1) = .error e) ∧
    (∀ r, t (retries - 1) = .ok r →
      (∀ i, i < retries - 1 → continuesLoop (t i) = true) →
      request_with_retries t retries = .ok r) := by
  constructor
  · intro e heq
    exact requestAttempts_error_from_final t retries retries 0 (by omega)
      (by omega) e heq
  · intro r hfin hmid
    exact requestAttempts_final_ok t retries retries 0 (by omega) (by omega)
      (fun i _ h2 => hmid i h2) r hfin

theorem C10_request_with_retries_returns_final_response_witness :
    request_with_retries (fun _ => .ok ⟨503, ""⟩) 3 = .ok ⟨503, ""⟩ :=
  (C10_request_with_retries_returns_final_response
    (fun _ => .ok ⟨503, ""⟩) 3 (by omega)).2 ⟨503, ""⟩ rfl
    (fun i _ => by simp [continuesLoop, RETRYABLE_STATUSES])

/-! ## C8 -/

/-- C8: the per-company Email Alert Agent returns `email_sent = false`
without contacting SMTP whenever the run's `has_changes` is false, and the
fleet-wide daily digest sends nothing when the 24-hour aggregation over all
active companies is empty, whatever the recipient configuration. -/
theorem C8_email_gating :
    (∀ (companyFound : Bool) (recipients : List String) (smtpOk : Bool),
      email_agent false companyFound recipients smtpOk = ⟨false, false⟩) ∧
    (∀ (companies : List CompanyRow) (docs : List DocRow)
        (changes : List ChangeLogRow) (pchanges : List PageChangeRow)
        (cutoff : Int) (recipients : List String) (smtpOk : Bool),
      ((companies.filter (·.active)).flatMap
        (fun c => digestDocChanges docs changes c cutoff)) = [] →
      ((companies.filter (·.active)).flatMap
        (fun c => digestPageChanges pchanges c cutoff)) = [] →
      run_daily_digest companies docs changes pchanges cutoff recipients
        smtpOk = ⟨false, false⟩) := by
  constructor
  · intro companyFound recipients smtpOk
    simp [email_agent]
  · intro companies docs changes pchanges cutoff recipients smtpOk h1 h2
    simp [run_daily_digest, h1, h2]

theorem C8_email_gating_witness :
    email_agent false true ["ops@example.com"] true = ⟨false, false⟩ ∧
    run_daily_digest [exC2Company] [] [] [] 0 ["ops@example.com"] true =
      ⟨false, false⟩ :=
  ⟨C8_email_gating.1 true ["ops@example.com"] true,
   C8_email_gating.2 [exC2Company] [] [] [] 0 ["ops@example.com"] true
     (by rfl) (by rfl)⟩

/-! ## C3 -/

set_option maxRecDepth 100000 in
/-- C3: the Classify Agent in the source does assign `(NON_FINANCIAL, OTHER)`
to a signal matching no rule keyword, but, contradicting the claim and the
repository's own unit test (`test_classifier_rules.py` unpacks `_classify`
into four values including a confidence), it computes no confidence and its
only persisted effect is `doc_type`: `classifier_confidence`,
`classifier_version` and `needs_review` are left untouched (in particular
`classifier_version` is never set to `rule_v2`). -/
theorem C3_classifier_persists_no_confidence :
    pyClassify "https://example.com/files/doc-123.pdf" "doc-123.pdf"
        "This is a general company publication with no clear filing keywords."
      = ("NON_FINANCIAL", "OTHER") ∧
    (∀ doc : DocRow,
      (classify_agent_update doc).classifier_confidence =
          doc.classifier_confidence ∧
      (classify_agent_update doc).classifier_version =
          doc.classifier_version ∧
      (classify_agent_update doc).needs_review = doc.needs_review) ∧
    (classify_agent_update
      { blankDoc with
          document_url := "https://example.com/files/doc-123.pdf",
          local_path := some "doc-123.pdf",
          first_page_text := some "This is a general company publication with no clear filing keywords." }).doc_type
      = "NON_FINANCIAL|OTHER" := by
  refine ⟨by decide, fun doc => ⟨rfl, rfl, rfl⟩, by decide⟩

/-! ## C1 -/

theorem extract_with_llm_none (attempts : Nat → Option Meta)
    (hfail : ∀ i, attempts i = none) : extract_with_llm attempts = none := by
  simp [extract_with_llm, firstTruthyAttempt, hfail]

theorem upsert_metadata_mem (recs : List MetaRecord) (docId : Nat)
    (data : Meta) :
    ((upsert_metadata recs docId data).find?
      (fun r => r.document_id == docId)).isSome := by
  unfold upsert_metadata
  by_cases h : (recs.find? (fun r => r.document_id == docId)).isSome
  · rw [if_pos h]
    rw [List.find?_isSome] at h ⊢
    obtain ⟨x, hx, hpx⟩ := h
    refine ⟨_, List.mem_map_of_mem _ hx, ?_⟩
    simp only [hpx, if_pos]
    exact beq_self_eq_true docId
  · rw [if_neg h]
    rw [List.find?_isSome]
    exact ⟨_, List.mem_append_right _ (List.mem_singleton_self _),
      beq_self_eq_true docId⟩

set_option maxRecDepth 100000 in
set_option maxHeartbeats 1000000 in
/-- C1 (amended): a document entry with a truthy `doc_id` and non-empty
extracted text whose LLM extraction fails on every attempt is NOT skipped:
the Extract Agent merges deterministic fallback metadata over the empty
payload, still writes a MetadataRecord for the document, and sets its
`metadata_extracted` flag to true; the run continues (the step is a total
function over the remaining entries). -/
theorem C1_llm_total_failure_merges_fallback
    (db : ExtractDb) (info : DownloadedDoc) (attempts : Nat → Option Meta)
    (docId : Nat) (doc : DocRow)
    (hid : info.doc_id = some docId) (h0 : docId ≠ 0)
    (htext : ¬ info.full_text.isEmpty)
    (hdoc : (db.docs.filter (fun d => d.id = docId)).head? = some doc)
    (hfail : ∀ i, attempts i = none) :
    extract_one db info attempts =
      { docs := db.docs.map (fun d =>
          if d.id = docId then { d with metadata_extracted := true } else d),
        metas := upsert_metadata db.metas docId
          (merge_fallback_metadata doc [] info.full_text
            (startsWithL doc.doc_type.toList "FINANCIAL".toList)) } ∧
    ((extract_one db info attempts).metas.find?
      (fun r => r.document_id == docId)).isSome := by
  have hllm := extract_with_llm_none attempts hfail
  have h1 : extract_one db info attempts =
      { docs := db.docs.map (fun d =>
          if d.id = docId then { d with metadata_extracted := true } else d),
        metas := upsert_metadata db.metas docId
          (merge_fallback_metadata doc [] info.full_text
            (startsWithL doc.doc_type.toList "FINANCIAL".toList)) } := by
    unfold extract_one
    rw [hid]
    have hcond : ¬(docId = 0 ∨ info.full_text.isEmpty = true) := by
      rintro (h | h)
      · exact h0 h
      · exact htext h
    dsimp only
    rw [if_neg hcond, hdoc]
    dsimp only
    rw [hllm]
    rfl
  refine ⟨h1, ?_⟩
  have h2 : (extract_one db info attempts).metas =
      upsert_metadata db.metas docId
        (merge_fallback_metadata doc [] info.full_text
          (startsWithL doc.doc_type.toList "FINANCIAL".toList)) := by
    rw [h1]
  rw [h2]
  exact upsert_metadata_mem _ _ _

set_option maxRecDepth 100000 in
set_option maxHeartbeats 1000000 in
theorem C1_llm_total_failure_merges_fallback_witness :
    ((extract_one exC1Db exC1Info (fun _ => none)).metas.find?
      (fun r => r.document_id == 1)).isSome :=
  (C1_llm_total_failure_merges_fallback exC1Db exC1Info (fun _ => none) 1
    exC1Doc rfl (by decide) (by decide) rfl (fun _ => rfl)).2

set_option maxRecDepth 100000 in
set_option maxHeartbeats 1000000 in
/-- C1 (counterexample to the claim as stated): for a concrete document whose
LLM oracle fails on every attempt, the Extract Agent still flips
`metadata_extracted` to true and writes a MetadataRecord, contradicting "its
metadata_extracted flag stays false and no MetadataRecord is written". -/
theorem C1_counterexample_llm_failure_still_writes :
    ((extract_one exC1Db exC1Info (fun _ => none)).docs.map
      (·.metadata_extracted)) = [true] ∧
    ((extract_one exC1Db exC1Info (fun _ => none)).metas.map
      (·.document_id)) = [1] := by
  exact ⟨rfl, rfl⟩

/-! ## C2 -/

/-- C2 (amended): the Excel Report Agent always writes one fleet-wide
workbook at `{base, with /app/downloads rewritten to downloads}/reports/
finwatch_{YYYYMMDD_HHMM}.xlsx` — not a per-company
`metadata_{slug}_{date}.xlsx` — holding exactly seven sheets (Summary,
Financial Docs, Non-Financial Docs, 24h Changes, WebWatch, Raw Metadata,
Errors, in that order); when no ChangeLog rows fall in the 24-hour window the
24h Changes sheet carries no data rows at all (header only, no placeholder
row), and likewise the WebWatch sheet for PageChange rows. -/
theorem C2_fleetwide_seven_sheet_workbook (db : ExcelDb)
    (base dateStr nowStr : String) (cutoff : Int) :
    (excel_agent db base dateStr nowStr cutoff).sheets.length = 7 ∧
    (excel_agent db base dateStr nowStr cutoff).sheets.map (·.name) =
      ["📊 Summary", "💰 Financial Docs", "📋 Non-Financial Docs",
       "🔔 24h Changes", "🌐 WebWatch", "🔬 Raw Metadata", "❌ Errors"] ∧
    (excel_agent db base dateStr nowStr cutoff).out_path =
      ((pyReplace base "/app/downloads" "downloads") ++ "/reports") ++
        "/finwatch_" ++ dateStr ++ ".xlsx" ∧
    (db.changes.filter (fun c => cutoff ≤ c.detected_at) = [] →
      (sheet_24h_changes db cutoff).rows = []) ∧
    (db.pchanges.filter (fun p => cutoff ≤ p.detected_at) = [] →
      (sheet_webwatch db cutoff).rows = []) := by
  refine ⟨rfl, rfl, rfl, ?_, ?_⟩
  · intro h
    simp [sheet_24h_changes, changeJoinRows, h, sortedBy]
  · intro h
    simp [sheet_webwatch, h, sortedBy]

theorem C2_fleetwide_seven_sheet_workbook_witness :
    (sheet_24h_changes exC2Db 0).rows = [] ∧
    (sheet_webwatch exC2Db 0).rows = [] :=
  ⟨(C2_fleetwide_seven_sheet_workbook exC2Db "/app/downloads" "20260101_0000"
      "2026-01-01 00:00 UTC" 0).2.2.2.1 rfl,
   (C2_fleetwide_seven_sheet_workbook exC2Db "/app/downloads" "20260101_0000"
      "2026-01-01 00:00 UTC" 0).2.2.2.2 rfl⟩

/-- C2 (counterexample to the claim as stated): on a concrete database with
one company and zero changes, the workbook has 7 sheets (not 5), its path is
the fleet-wide `downloads/reports/finwatch_{date}.xlsx` rather than the
claimed `{base_folder}/{company_slug}/metadata_{company_slug}_{date}.xlsx`,
and the "24h Changes" and "WebWatch" sheets contain no placeholder row (their
data-row lists are empty). -/
theorem C2_counterexample_workbook_shape :
    (excel_agent exC2Db "/app/downloads" "20260101_0000"
      "2026-01-01 00:00 UTC" 0).sheets.length = 7 ∧
    ¬ (excel_agent exC2Db "/app/downloads" "20260101_0000"
      "2026-01-01 00:00 UTC" 0).sheets.length = 5 ∧
    (excel_agent exC2Db "/app/downloads" "20260101_0000"
      "2026-01-01 00:00 UTC" 0).out_path =
      "downloads/reports/finwatch_20260101_0000.xlsx" ∧
    (excel_agent exC2Db "/app/downloads" "20260101_0000"
      "2026-01-01 00:00 UTC" 0).out_path ≠
      claimedExcelPath "/app/downloads" "acme" "2026-01-01" ∧
    (sheet_24h_changes exC2Db 0).rows = [] ∧
    (sheet_webwatch exC2Db 0).rows = [] := by
  refine ⟨rfl, by decide, rfl, by decide, rfl, rfl⟩

/-! ## C6 -/

/-- C6 (amended): the IngestionRetry lifecycle, with the increment rule
widened to PENDING-or-DEAD rows.  A first failure creates a PENDING row with
`failure_count = 1` and `next_retry_at = now + min(240, 2^1×5)`; a further
failure of a PENDING/DEAD row increments `failure_count` and, below 3,
stays PENDING with `next_retry_at = now + min(240, 2^n×5)` minutes; reaching
3 (or beyond) turns the row DEAD with `next_retry_at` cleared and writes a
`DEAD_LETTER` error-log row; a subsequent success resolves every
PENDING/DEAD row for the (company, URL) to RESOLVED. -/
theorem C6_retry_lifecycle (retries : List RetryRow) (now : Int)
    (newId companyId : Nat) (url reason msg : String) :
    (latestRetryCandidate retries companyId url = none →
      (upsert_retry_entry retries now newId companyId url reason msg).retries
        = retries ++
          [{ id := newId, company_id := companyId, document_url := url,
             source_domain := pyLower (pyUrlNetloc url),
             reason_code := reason, failure_count := 1, status := "PENDING",
             last_error := pyTake msg 2000, last_attempt_at := some now,
             next_retry_at := some (now + (min 240 (2 ^ 1 * 5) : Nat)),
             created_at := now }] ∧
      (upsert_retry_entry retries now newId companyId url reason
        msg).deadLetter = none) ∧
    (∀ r, latestRetryCandidate retries companyId url = some r →
      r.failure_count + 1 < MAX_RETRY_ATTEMPTS →
      (upsert_retry_entry retries now newId companyId url reason msg).retries
        = retries.map (fun x => if x.id = r.id then
            { r with failure_count := r.failure_count + 1,
                     reason_code := reason, last_error := pyTake msg 2000,
                     last_attempt_at := some now, status := "PENDING",
                     next_retry_at := some (now +
                       (min 240 (2 ^ (r.failure_count + 1) * 5) : Nat)) }
          else x) ∧
      (upsert_retry_entry retries now newId companyId url reason
        msg).deadLetter = none) ∧
    (∀ r, latestRetryCandidate retries companyId url = some r →
      MAX_RETRY_ATTEMPTS ≤ r.failure_count + 1 →
      (upsert_retry_entry retries now newId companyId url reason msg).retries
        = retries.map (fun x => if x.id = r.id then
            { r with failure_count := r.failure_count + 1,
                     reason_code := reason, last_error := pyTake msg 2000,
                     last_attempt_at := some now, status := "DEAD",
                     next_retry_at := none }
          else x) ∧
      (upsert_retry_entry retries now newId companyId url reason
        msg).deadLetter = some
          { company_id := some companyId, document_url := url,
            step := "download", error_type := "DEAD_LETTER",
            error_message := pyTake (reason ++ ": " ++ msg) 2000,
            created_at := now }) ∧
    (∀ r ∈ retries, r.company_id = companyId → r.document_url = url →
      (r.status = "PENDING" ∨ r.status = "DEAD") →
      { r with status := "RESOLVED", next_retry_at := none } ∈
        resolve_retry_entry retries companyId url) ∧
    (∀ r2 ∈ resolve_retry_entry retries companyId url,
      r2.company_id = companyId → r2.document_url = url →
      r2.status ≠ "PENDING" ∧ r2.status ≠ "DEAD") := by
  refine ⟨?_, ?_, ?_, ?_, ?_⟩
  · intro h
    unfold upsert_retry_entry
    rw [h]
    dsimp only
    simp only [if_neg (by decide : ¬ MAX_RETRY_ATTEMPTS ≤ 1)]
    exact ⟨by first | rfl | trivial, by first | rfl | trivial⟩
  · intro r h hlt
    unfold upsert_retry_entry
    rw [h]
    dsimp only
    simp only [if_neg (Nat.not_le.mpr hlt)]
    exact ⟨by first | rfl | trivial, by first | rfl | trivial⟩
  · intro r h hge
    unfold upsert_retry_entry
    rw [h]
    dsimp only
    simp only [if_pos hge]
    exact ⟨by first | rfl | trivial, by first | rfl | trivial⟩
  · intro r hr hcmp hurl hpd
    have hx : (if r.company_id = companyId ∧ r.document_url = url ∧
          (r.status = "PENDING" ∨ r.status = "DEAD") then
        { r with status := "RESOLVED", next_retry_at := none } else r) =
        { r with status := "RESOLVED", next_retry_at := none } :=
      if_pos ⟨hcmp, hurl, hpd⟩
    exact hx ▸ List.mem_map_of_mem _ hr
  · intro r2 h2 hcmp hurl
    obtain ⟨r, hr, hf⟩ := List.mem_map.mp h2
    by_cases hcond : r.company_id = companyId ∧ r.document_url = url ∧
        (r.status = "PENDING" ∨ r.status = "DEAD")
    · rw [if_pos hcond] at hf
      have hstat : r2.status = "RESOLVED" := by rw [← hf]
      rw [hstat]
      exact ⟨by decide, by decide⟩
    · rw [if_neg hcond] at hf
      subst hf
      constructor
      · intro hp
        exact hcond ⟨hcmp, hurl, Or.inl hp⟩
      · intro hd
        exact hcond ⟨hcmp, hurl, Or.inr hd⟩

theorem C6_retry_lifecycle_witness :
    (upsert_retry_entry [] 100 7 1 "https://e.com/a.pdf" "DOWNLOAD_FAILED"
      "boom").retries =
      [{ id := 7, company_id := 1, document_url := "https://e.com/a.pdf",
         source_domain := "e.com", reason_code := "DOWNLOAD_FAILED",
         failure_count := 1, status := "PENDING", last_error := "boom",
         last_attempt_at := some 100, next_retry_at := some 110,
         created_at := 100 }] ∧
    (upsert_retry_entry
      [{ id := 7, company_id := 1, document_url := "https://e.com/a.pdf",
         source_domain := "e.com", reason_code := "DOWNLOAD_FAILED",
         failure_count := 1, status := "PENDING", last_error := "boom",
         last_attempt_at := some 100, next_retry_at := some 110,
         created_at := 100 }] 200 8 1 "https://e.com/a.pdf"
      "DOWNLOAD_FAILED" "boom2").retries.map
        (fun r => (r.failure_count, r.status, r.next_retry_at)) =
      [(2, "PENDING", some 220)] ∧
    ((resolve_retry_entry [exC6DeadRow] 1 "https://e.com/a.pdf").map
      (fun r => (r.status, r.next_retry_at))) = [("RESOLVED", none)] := by
  have h1 := (C6_retry_lifecycle [] 100 7 1 "https://e.com/a.pdf"
    "DOWNLOAD_FAILED" "boom").1 rfl
  have h2 := ((C6_retry_lifecycle
    [{ id := 7, company_id := 1, document_url := "https://e.com/a.pdf",
       source_domain := "e.com", reason_code := "DOWNLOAD_FAILED",
       failure_count := 1, status := "PENDING", last_error := "boom",
       last_attempt_at := some 100, next_retry_at := some 110,
       created_at := 100 }] 200 8 1 "https://e.com/a.pdf" "DOWNLOAD_FAILED"
    "boom2").2.1 _ rfl (by decide)).1
  have h3 := (C6_retry_lifecycle [exC6DeadRow] 300 9 1 "https://e.com/a.pdf"
    "x" "y").2.2.2.1 exC6DeadRow (by decide) rfl rfl (Or.inr rfl)
  refine ⟨?_, ?_, ?_⟩
  · rw [h1.1]
    decide
  · rw [h2]
    decide
  · have hmem := h3
    revert hmem
    decide

/-- C6 (counterexample to the claim as stated): a further failure of an
already-DEAD retry row increments its `failure_count` from 3 to 4 while its
status is (and stays) DEAD, so `failure_count` does not only increase while
`status = PENDING`. -/
theorem C6_counterexample_dead_row_increment :
    exC6DeadRow.status = "DEAD" ∧ exC6DeadRow.failure_count = 3 ∧
    ((upsert_retry_entry [exC6DeadRow] 100 2 1 "https://e.com/a.pdf"
      "DOWNLOAD_FAILED" "boom2").retries.map
        (fun r => (r.failure_count, r.status))) = [(4, "DEAD")] := by
  exact ⟨rfl, rfl, by decide⟩

/-! ## C5 -/

theorem apply_source_metadata_frame (r : DocRow) (m : SourceMeta) (t : Int) :
    (apply_source_metadata r m t).id = r.id ∧
    (apply_source_metadata r m t).file_hash = r.file_hash ∧
    (apply_source_metadata r m t).local_path = r.local_path ∧
    (apply_source_metadata r m t).file_size_bytes = r.file_size_bytes ∧
    (apply_source_metadata r m t).doc_type = r.doc_type ∧
    (apply_source_metadata r m t).metadata_extracted = r.metadata_extracted ∧
    (apply_source_metadata r m t).status = r.status := by
  unfold apply_source_metadata
  by_cases h1 : optTruthy m.source_type = true <;>
    by_cases h2 : optTruthy m.source_domain = true <;>
      by_cases h3 : optTruthy m.discovery_strategy = true <;>
        by_cases h4 : r.first_seen_at = none <;>
          simp [h1, h2, h3, h4]

/-- C5 (amended): the global content-dedupe looks up the EARLIEST-created
other DocumentRegistry row whose `file_hash` matches and whose `local_path`
is non-null, reusing its path only if that single row's path still exists on
disk; when such a path is found and differs from the just-downloaded file,
the downloaded file is deleted, the result is marked `deduplicated = true`,
and (for a new document, or an existing one whose stored hash differs) the
reused path becomes the registry row's `local_path`. -/
theorem C5_dedupe_reuses_path (st : DlState) (env : DlEnv) (companyId : Nat)
    (url p t : String)
    (hdl : env.outcome = .ok p)
    (hval : validatorMatch
      ((st.docs.filter (fun d => d.document_url = url)).head?) env.headEtag
      env.headLastMod = false)
    (hded : resolve_global_dedupe_path st.docs env.fileExists (env.hashOf p)
      (((st.docs.filter (fun d => d.document_url = url)).head?).map (·.id)) =
        some t)
    (hne : t ≠ p) :
    p ∈ (process_one st env companyId url).1.removed ∧
    (∃ r, (process_one st env companyId url).2 = some r ∧
      r.deduplicated = some true ∧
      ((st.docs.filter (fun d => d.document_url = url)).head? = none →
        r.local_path = some t) ∧
      (∀ ex, (st.docs.filter (fun d => d.document_url = url)).head? = some ex
        → ex.file_hash ≠ some (env.hashOf p) → r.local_path = some t)) := by
  have hbne : (t != p) = true := bne_iff_ne.mpr hne
  unfold process_one
  dsimp only
  rw [hval, hdl]
  dsimp only
  rw [hded]
  dsimp only
  simp only [if_pos hbne]
  cases hex : (st.docs.filter (fun d => d.document_url = url)).head? with
  | none =>
    dsimp only
    refine ⟨by simp, ?_⟩
    refine ⟨_, rfl, ?_, ?_, ?_⟩
    · simp [hbne]
    · intro _
      simp [hne]
    · intro ex h
      cases h
  | some ex =>
    dsimp only
    by_cases hsame : (ex.file_hash == some (env.hashOf p)) = true
    · simp only [hsame, hbne, Bool.not_true, Bool.and_false,
        Bool.false_eq_true, if_false, eq_self_iff_true, if_true]
      refine ⟨by simp, ?_⟩
      refine ⟨_, rfl, ?_, ?_, ?_⟩
      · simp [hbne]
      · intro h
        cases h
      · intro ex2 h2 hne2
        exfalso
        cases h2
        exact hne2 (eq_of_beq hsame)
    · simp only [Bool.eq_false_iff.mpr hsame, hbne, Bool.not_true,
        Bool.false_and, Bool.and_false, Bool.false_eq_true, if_false,
        Bool.not_false, eq_self_iff_true, if_true]
      refine ⟨by simp, ?_⟩
      refine ⟨_, rfl, ?_, ?_, ?_⟩
      · simp [hbne]
      · intro h
        cases h
      · intro ex2 h2 _
        cases h2
        refine ((apply_source_metadata_frame _ _ _).2.2.1).trans ?_
        simp [hne]

theorem C5_dedupe_reuses_path_witness :
    "downloads/x/c.pdf.dl" ∈
      (process_one exC5St exC5Env 1 "https://e.com/c.pdf").1.removed := by
  have h := (C5_dedupe_reuses_path exC5St exC5Env 1 "https://e.com/c.pdf"
    "downloads/x/c.pdf.dl" "downloads/x/a.pdf" rfl rfl (by decide)
    (by decide)).1
  exact h

/-- C5 (counterexample to the claim as stated): with two other registry rows
of the same hash whose files both exist on disk, the source's lookup returns
the OLDEST-created row's path, while the claim's "most-recently-created"
reading returns the newest row's path; they differ. -/
theorem C5_counterexample_oldest_not_newest :
    resolve_global_dedupe_path [exC5DocA, exC5DocB] (fun _ => true) "h1" none
      = some "downloads/x/a.pdf" ∧
    resolve_global_dedupe_path_claimed [exC5DocA, exC5DocB] (fun _ => true)
      "h1" none = some "downloads/x/b.pdf" ∧
    ("downloads/x/a.pdf" : String) ≠ "downloads/x/b.pdf" := by
  refine ⟨by decide, by decide, by decide⟩

/-! ## C9 -/

/-- C9: whenever `_process_one` reports an existing document UNCHANGED
(either via matching HEAD validators or via an identical re-download hash),
the registry row's `file_hash`, `local_path`, `file_size_bytes`, `doc_type`
and `metadata_extracted` are identical before and after processing — the
update replaces the row by one that agrees on all five fields. -/
theorem C9_unchanged_is_frame (st : DlState) (env : DlEnv) (companyId : Nat)
    (url : String) (doc : DocRow) (r : DlResult)
    (hex : (st.docs.filter (fun d => d.document_url = url)).head? = some doc)
    (hres : (process_one st env companyId url).2 = some r)
    (hst : r.status = "UNCHANGED") :
    ∃ d2, (process_one st env companyId url).1.docs = updateDoc st.docs d2 ∧
      d2.id = doc.id ∧
      d2.file_hash = doc.file_hash ∧ d2.local_path = doc.local_path ∧
      d2.file_size_bytes = doc.file_size_bytes ∧
      d2.doc_type = doc.doc_type ∧
      d2.metadata_extracted = doc.metadata_extracted := by
  unfold process_one at hres ⊢
  dsimp only at hres ⊢
  rw [hex] at hres ⊢
  by_cases hval : validatorMatch (some doc) env.headEtag env.headLastMod = true
  · rw [hval] at hres ⊢
    dsimp only at hres ⊢
    rw [if_pos rfl] at hres ⊢
    refine ⟨_, rfl, ?_⟩
    have hf := apply_source_metadata_frame
      { doc with status := "UNCHANGED", last_checked := some env.now,
                 last_seen_at := some env.now }
      ((env.sourceMeta.getD (infer_source_from_url url))) env.now
    exact ⟨hf.1, hf.2.1, hf.2.2.1, hf.2.2.2.1, hf.2.2.2.2.1, hf.2.2.2.2.2.1⟩
  · rw [Bool.eq_false_iff.mpr hval] at hres ⊢
    dsimp only at hres ⊢
    rw [if_neg (by simp)] at hres ⊢
    cases hout : env.outcome with
    | fail etype emsg =>
      rw [hout] at hres
      dsimp only at hres ⊢
      cases hres
      simp at hst
    | ok p =>
      rw [hout] at hres
      dsimp only at hres ⊢
      by_cases hsame : (doc.file_hash == some (env.hashOf p)) = true
      · rw [hsame] at hres ⊢
        try dsimp only at hres
        try dsimp only
        try simp only [if_true, eq_self_iff_true, Bool.true_and,
          Bool.not_true, Bool.false_eq_true, if_false,
          apply_ite DlState.docs, ite_self] at hres
        try simp only [if_true, eq_self_iff_true, Bool.true_and,
          Bool.not_true, Bool.false_eq_true, if_false,
          apply_ite DlState.docs, ite_self]
        refine ⟨_, rfl, ?_⟩
        have hf := apply_source_metadata_frame
          { doc with status := "UNCHANGED", etag := env.headEtag,
                     last_modified_header := env.headLastMod,
                     last_checked := some env.now,
                     last_seen_at := some env.now }
          (env.sourceMeta.getD (infer_source_from_url url)) env.now
        exact ⟨hf.1, hf.2.1, hf.2.2.1, hf.2.2.2.1, hf.2.2.2.2.1,
          hf.2.2.2.2.2.1⟩
      · rw [Bool.eq_false_iff.mpr hsame] at hres ⊢
        try dsimp only at hres
        try dsimp only
        exfalso
        cases hres
        simp only [apply_source_metadata, apply_ite DocRow.status, ite_self]
          at hst
        exact absurd hst (by decide)

theorem C9_unchanged_is_frame_witness :
    ∃ d2, (process_one exC9St exC9Env 1 "https://e.com/a.pdf").1.docs =
        updateDoc exC9St.docs d2 ∧
      d2.id = exC9Doc.id ∧
      d2.file_hash = exC9Doc.file_hash ∧
      d2.local_path = exC9Doc.local_path ∧
      d2.file_size_bytes = exC9Doc.file_size_bytes ∧
      d2.doc_type = exC9Doc.doc_type ∧
      d2.metadata_extracted = exC9Doc.metadata_extracted :=
  C9_unchanged_is_frame exC9St exC9Env 1 "https://e.com/a.pdf" exC9Doc
    { url := "https://e.com/a.pdf", status := "UNCHANGED", doc_id := 1,
      local_path := none, deduplicated := none, reason := none }
    rfl (by decide) rfl

/-! ## C4 -/

theorem find?_eq_head?_filter (p : α → Bool) :
    ∀ l : List α, l.find? p = (l.filter p).head? := by
  intro l
  induction l with
  | nil => rfl
  | cons a t ih =>
    by_cases h : p a = true
    · rw [List.find?_cons_of_pos _ h, List.filter_cons_of_pos h]
      rfl
    · have h2 : ¬ p a = true := h
      rw [List.find?_cons_of_neg _ (by simpa using h),
        List.filter_cons_of_neg h2, ih]

theorem filter_url_singleton (u : String) (s0 : Snapshot)
    (h0 : s0.page_url = u) :
    ∀ snaps : List Snapshot,
      snaps.Pairwise (fun a b => a.page_url ≠ b.page_url) → s0 ∈ snaps →
      snaps.filter (fun s => s.page_url = u) = [s0] := by
  intro snaps
  induction snaps with
  | nil => intro _ h; cases h
  | cons a t ih =>
    intro hpw hmem
    rw [List.pairwise_cons] at hpw
    rcases List.mem_cons.mp hmem with rfl | hmem2
    · rw [List.filter_cons_of_pos (by simp [h0])]
      have ht : t.filter (fun s => s.page_url = u) = [] := by
        rw [List.filter_eq_nil]
        intro s hs
        simp only [decide_eq_true_eq]
        intro hsu
        exact hpw.1 s hs (h0.trans hsu.symm)
      rw [ht]
    · have ha : ¬ (a.page_url = u) := fun hau =>
        hpw.1 s0 hmem2 (hau.trans h0.symm)
      rw [List.filter_cons_of_neg (by simp [ha])]
      exact ih hpw.2 hmem2

theorem markDeleted_filter (live : List String) (u : String) :
    ∀ snaps : List Snapshot,
      (markDeletedSnaps snaps live).filter (fun s => s.page_url = u) =
        (snaps.filter (fun s => s.page_url = u)).map
          (fun s => if s.page_url ∉ live ∧ s.is_active then
              { s with is_active := false } else s) := by
  intro snaps
  induction snaps with
  | nil => rfl
  | cons a t ih =>
    have hpre : ((if a.page_url ∉ live ∧ a.is_active = true then
        { a with is_active := false } else a) : Snapshot).page_url
        = a.page_url := by
      split <;> rfl
    simp only [markDeletedSnaps] at ih ⊢
    rw [List.map_cons]
    by_cases ha : a.page_url = u
    · rw [List.filter_cons_of_pos
          (by rw [decide_eq_true_eq, hpre]; exact ha),
        List.filter_cons_of_pos (by simp [ha]), List.map_cons, ih]
    · rw [List.filter_cons_of_neg
          (by rw [decide_eq_true_eq, hpre]; exact ha),
        List.filter_cons_of_neg (by simp [ha]), ih]

theorem deletedChanges_filter_live (live : List String) (u : String)
    (hl : u ∈ live) :
    ∀ snaps : List Snapshot,
      (deletedChanges snaps live).filter (fun e => e.page_url = u) = [] := by
  intro snaps
  induction snaps with
  | nil => rfl
  | cons a t ih =>
    simp only [deletedChanges, List.filterMap_cons] at *
    by_cases hc : a.page_url ∉ live ∧ a.is_active = true
    · have ha : ¬ (a.page_url = u) := fun hau => hc.1 (hau ▸ hl)
      simp [hc, List.filter_cons, ha, ih]
    · simp [hc, ih]

theorem deletedChanges_filter_singleton (live : List String) (u : String)
    (s0 : Snapshot) (h0 : s0.page_url = u) (hactive : s0.is_active = true)
    (hlive : u ∉ live) :
    ∀ snaps : List Snapshot,
      snaps.Pairwise (fun a b => a.page_url ≠ b.page_url) → s0 ∈ snaps →
      (deletedChanges snaps live).filter (fun e => e.page_url = u) =
        [{ page_url := s0.page_url, change_type := "PAGE_DELETED",
           diff_summary := "Page no longer reachable: " ++ s0.page_url,
           new_pdf_urls := [], old_hash := some s0.content_hash,
           new_hash := none }] := by
  intro snaps
  induction snaps with
  | nil => intro _ h; cases h
  | cons a t ih =>
    intro hpw hmem
    rw [List.pairwise_cons] at hpw
    rcases List.mem_cons.mp hmem with rfl | hmem2
    · have hcond : s0.page_url ∉ live ∧ s0.is_active = true :=
        ⟨h0 ▸ hlive, hactive⟩
      simp only [deletedChanges, List.filterMap_cons, if_pos hcond]
      rw [List.filter_cons_of_pos (by simp [h0])]
      have ht : (deletedChanges t live).filter (fun e => e.page_url = u)
          = [] := by
        rw [List.filter_eq_nil]
        intro e he
        simp only [decide_eq_true_eq]
        obtain ⟨s, hs, hse⟩ := List.mem_filterMap.mp he
        by_cases hcs : s.page_url ∉ live ∧ s.is_active = true
        · rw [if_pos hcs] at hse
          cases hse
          exact fun hsu => hpw.1 s hs (h0.trans hsu.symm)
        · rw [if_neg hcs] at hse
          cases hse
      unfold deletedChanges at ht
      rw [ht]
    · have ha : ¬ (a.page_url ∉ live ∧ a.is_active = true) ∨
          ¬ (a.page_url = u) := by
        right
        exact fun hau => hpw.1 s0 hmem2 (hau.trans h0.symm)
      simp only [deletedChanges, List.filterMap_cons]
      by_cases hca : a.page_url ∉ live ∧ a.is_active = true
      · have hne : ¬ (a.page_url = u) := by
          rcases ha with h | h
          · exact absurd hca h
          · exact h
        rw [if_pos hca]
        rw [List.filter_cons_of_neg (by simp [hne])]
        exact ih hpw.2 hmem2
      · rw [if_neg hca]
        exact ih hpw.2 hmem2

theorem filter_map_if (u v : String) (huv : ¬ v = u) (w : Snapshot)
    (hw : w.page_url = v) :
    ∀ l : List Snapshot,
      (l.map (fun s => if s.page_url = v then w else s)).filter
        (fun s => s.page_url = u) = l.filter (fun s => s.page_url = u) := by
  intro l
  induction l with
  | nil => rfl
  | cons a t ih =>
    simp only [List.map_cons, List.filter_cons]
    by_cases hav : a.page_url = v
    · rw [if_pos hav]
      have h1 : ¬ (w.page_url = u) := by rw [hw]; exact huv
      have h2 : ¬ (a.page_url = u) := by rw [hav]; exact huv
      simp [h1, h2, ih]
    · rw [if_neg hav]
      by_cases hau : a.page_url = u <;> simp [hau, ih]

theorem processPage_filter_ne (hashFn : String → String)
    (diffFn : String → String → String) (companyId : Nat)
    (p : FetchedPage) (u : String) (hne : ¬ p.page_url = u)
    (acc : List Snapshot × List PageChangeEv) :
    ((processPage hashFn diffFn companyId acc p).1.filter
        (fun s => s.page_url = u) =
      acc.1.filter (fun s => s.page_url = u)) ∧
    ((processPage hashFn diffFn companyId acc p).2.filter
        (fun e => e.page_url = u) =
      acc.2.filter (fun e => e.page_url = u)) := by
  obtain ⟨snaps, evs⟩ := acc
  unfold processPage
  cases hc : p.content with
  | none => exact ⟨rfl, rfl⟩
  | some c =>
    obtain ⟨text, pdfs, status⟩ := c
    dsimp only
    cases hf : snaps.find? (fun s => s.page_url = p.page_url) with
    | none =>
      dsimp only
      constructor
      · simp [List.filter_append, hne]
      · simp [List.filter_append, hne]
    | some existing =>
      have hx : existing.page_url = p.page_url := by
        have := List.find?_some hf
        simpa using this
      dsimp only
      constructor
      · refine filter_map_if u p.page_url hne _ ?_ snaps
        exact hx
      · split <;> split <;> simp [List.filter_append, hne]

theorem processPages_filter_frame (hashFn : String → String)
    (diffFn : String → String → String) (companyId : Nat) (u : String) :
    ∀ pages : List FetchedPage, (∀ p ∈ pages, ¬ p.page_url = u) →
      ∀ acc : List Snapshot × List PageChangeEv,
      (((pages.foldl (processPage hashFn diffFn companyId) acc).1.filter
          (fun s => s.page_url = u)) =
        acc.1.filter (fun s => s.page_url = u)) ∧
      (((pages.foldl (processPage hashFn diffFn companyId) acc).2.filter
          (fun e => e.page_url = u)) =
        acc.2.filter (fun e => e.page_url = u)) := by
  intro pages
  induction pages with
  | nil => intro _ acc; exact ⟨rfl, rfl⟩
  | cons p t ih =>
    intro hall acc
    rw [List.foldl_cons]
    have hstep := processPage_filter_ne hashFn diffFn companyId p u
      (hall p (by simp)) acc
    have hrest := ih (fun q hq => hall q (by simp [hq]))
      (processPage hashFn diffFn companyId acc p)
    exact ⟨hrest.1.trans hstep.1, hrest.2.trans hstep.2⟩

theorem processPage_self (hashFn : String → String)
    (diffFn : String → String → String) (companyId : Nat)
    (p : FetchedPage) (text : String) (pdfs : List String) (status : Nat)
    (hc : p.content = some (text, pdfs, status))
    (snaps : List Snapshot) (evs : List PageChangeEv) (s_u : Snapshot)
    (hfind : snaps.find? (fun s => s.page_url = p.page_url) = some s_u) :
    (∃ s1 ∈ (processPage hashFn diffFn companyId (snaps, evs) p).1,
      s1.page_url = p.page_url ∧ s1.is_active = true) ∧
    (∀ e ∈ (processPage hashFn diffFn companyId (snaps, evs) p).2,
      e ∈ evs ∨ e.change_type = "CONTENT_CHANGED" ∨
        e.change_type = "NEW_DOC_LINKED") := by
  have hx : s_u.page_url = p.page_url := by
    have := List.find?_some hfind
    simpa using this
  unfold processPage
  rw [hc]
  dsimp only
  rw [hfind]
  dsimp only
  constructor
  · refine ⟨_, List.mem_map_of_mem _ (List.mem_of_find?_eq_some hfind),
      ?_, ?_⟩
    · rw [if_pos (by simp [hx])]
      exact hx
    · rw [if_pos (by simp [hx])]
  · intro e he
    split at he <;> split at he <;>
      try simp only [List.mem_append, List.mem_singleton] at he
    all_goals
      first
        | exact Or.inl he
        | (rcases he with (he | rfl) | rfl
           · exact Or.inl he
           · exact Or.inr (Or.inl rfl)
           · exact Or.inr (Or.inr rfl))
        | (rcases he with he | rfl
           · exact Or.inl he
           · exact Or.inr (Or.inl rfl))
        | (rcases he with he | rfl
           · exact Or.inl he
           · exact Or.inr (Or.inr rfl))

/-- C4 (amended): a monitored page present in one WebWatch pass and absent in
the next yields exactly one `PAGE_DELETED` PageChange and flips its
PageSnapshot's `is_active` to false without deleting the row; but when the
URL is discovered again in a later pass, the SAME snapshot row is reactivated
in place (`is_active` set back to true) with no `PAGE_ADDED` event — a
resurrection of the old row, not a fresh snapshot life-cycle (only
`CONTENT_CHANGED`/`NEW_DOC_LINKED` can fire for it). -/
theorem C4_webwatch_page_lifecycle (hashFn : String → String)
    (diffFn : String → String → String) (companyId : Nat)
    (snaps : List Snapshot) (pages : List FetchedPage)
    (u : String) (s0 : Snapshot)
    (hdistinct : snaps.Pairwise (fun a b => a.page_url ≠ b.page_url))
    (hpdistinct : pages.Pairwise (fun a b => a.page_url ≠ b.page_url))
    (hs0 : s0 ∈ snaps) (hurl : s0.page_url = u) :
    ((∀ p ∈ pages, ¬ p.page_url = u) → s0.is_active = true →
      (((webwatchStep hashFn diffFn companyId snaps pages).2.filter
        (fun e => e.page_url = u)).map (·.change_type)) = ["PAGE_DELETED"] ∧
      { s0 with is_active := false } ∈
        (webwatchStep hashFn diffFn companyId snaps pages).1) ∧
    (∀ p ∈ pages, p.page_url = u → p.content ≠ none →
      (∀ e ∈ (webwatchStep hashFn diffFn companyId snaps pages).2,
        e.page_url = u → e.change_type ≠ "PAGE_ADDED") ∧
      (∃ s1 ∈ (webwatchStep hashFn diffFn companyId snaps pages).1,
        s1.page_url = u ∧ s1.is_active = true)) := by
  constructor
  · intro habsent hactive
    have hlive : u ∉ pages.map (·.page_url) := by
      intro hmem
      obtain ⟨p, hp, hpu⟩ := List.mem_map.mp hmem
      exact habsent p hp hpu
    have hframe := processPages_filter_frame hashFn diffFn companyId u pages
      habsent (markDeletedSnaps snaps (pages.map (·.page_url)),
        deletedChanges snaps (pages.map (·.page_url)))
    constructor
    · have hdel := deletedChanges_filter_singleton (pages.map (·.page_url)) u
        s0 hurl hactive hlive snaps hdistinct hs0
      unfold webwatchStep
      rw [hframe.2, hdel]
      rfl
    · have hmark := markDeleted_filter (pages.map (·.page_url)) u snaps
      rw [filter_url_singleton u s0 hurl snaps hdistinct hs0] at hmark
      have hcond : s0.page_url ∉ pages.map (·.page_url) ∧
          s0.is_active = true := ⟨hurl ▸ hlive, hactive⟩
      rw [List.map_singleton, if_pos hcond] at hmark
      have hmem1 : { s0 with is_active := false } ∈
          (markDeletedSnaps snaps (pages.map (·.page_url))).filter
            (fun s => s.page_url = u) := by
        rw [hmark]
        exact List.mem_singleton_self _
      have hmem2 : { s0 with is_active := false } ∈
          (webwatchStep hashFn diffFn companyId snaps pages).1.filter
            (fun s => s.page_url = u) := by
        unfold webwatchStep
        rw [hframe.1]
        exact hmem1
      exact List.mem_of_mem_filter hmem2
  · intro p hp hpu hcontent
    subst hpu
    obtain ⟨l1, l2, rfl⟩ := List.append_of_mem hp
    have hpw := hpdistinct
    rw [List.pairwise_append] at hpw
    have hpw2 := hpw.2.1
    rw [List.pairwise_cons] at hpw2
    have hl1 : ∀ q ∈ l1, ¬ q.page_url = p.page_url := fun q hq =>
      hpw.2.2 q hq p (List.mem_cons_self _ _)
    have hl2 : ∀ q ∈ l2, ¬ q.page_url = p.page_url := fun q hq h =>
      hpw2.1 q hq h.symm
    set live := ((l1 ++ p :: l2).map (·.page_url)) with hlivedef
    have hulive : p.page_url ∈ live := by
      rw [hlivedef]
      exact List.mem_map_of_mem _ (by simp)
    have hfold : (l1 ++ p :: l2).foldl
        (processPage hashFn diffFn companyId)
        (markDeletedSnaps snaps live, deletedChanges snaps live) =
        l2.foldl (processPage hashFn diffFn companyId)
          (processPage hashFn diffFn companyId
            (l1.foldl (processPage hashFn diffFn companyId)
              (markDeletedSnaps snaps live, deletedChanges snaps live)) p)
      := by
      rw [List.foldl_append, List.foldl_cons]
    have hframe1 := processPages_filter_frame hashFn diffFn companyId
      p.page_url l1 hl1
      (markDeletedSnaps snaps live, deletedChanges snaps live)
    have hmark := markDeleted_filter live p.page_url snaps
    rw [filter_url_singleton p.page_url s0 hurl snaps hdistinct hs0] at hmark
    have hcond : ¬ (s0.page_url ∉ live ∧ s0.is_active = true) := by
      intro hcc
      exact hcc.1 (hurl ▸ hulive)
    rw [List.map_singleton, if_neg hcond] at hmark
    set acc1 := l1.foldl (processPage hashFn diffFn companyId)
      (markDeletedSnaps snaps live, deletedChanges snaps live) with hacc1
    have hfilter1 : acc1.1.filter (fun s => s.page_url = p.page_url) =
        [s0] := by
      rw [hframe1.1, hmark]
    have hfind : acc1.1.find? (fun s => s.page_url = p.page_url) =
        some s0 := by
      rw [find?_eq_head?_filter, hfilter1]
      rfl
    obtain ⟨c, hc⟩ := Option.ne_none_iff_exists'.mp hcontent
    obtain ⟨text, pdfs, status⟩ := c
    have hself := processPage_self hashFn diffFn companyId p text pdfs
      status hc acc1.1 acc1.2 s0 hfind
    have hframe2 := processPages_filter_frame hashFn diffFn companyId
      p.page_url l2 hl2 (processPage hashFn diffFn companyId acc1 p)
    have hstepeq : processPage hashFn diffFn companyId (acc1.1, acc1.2) p =
        processPage hashFn diffFn companyId acc1 p := rfl
    constructor
    · intro e he heu
      have hemem : e ∈ ((l1 ++ p :: l2).foldl
          (processPage hashFn diffFn companyId)
          (markDeletedSnaps snaps live,
            deletedChanges snaps live)).2.filter
            (fun x => x.page_url = p.page_url) :=
        List.mem_filter.mpr ⟨by
          unfold webwatchStep at he
          exact he, by simp [heu]⟩
      rw [hfold, hframe2.2] at hemem
      have he2 := (List.mem_filter.mp hemem).1
      rcases (hstepeq ▸ hself.2) e he2 with hin | htype | htype
      · have hemem3 : e ∈ acc1.2.filter (fun x => x.page_url = p.page_url) :=
          List.mem_filter.mpr ⟨hin, by simp [heu]⟩
        rw [hframe1.2] at hemem3
        rw [deletedChanges_filter_live live p.page_url hulive snaps]
          at hemem3
        cases hemem3
      · rw [htype]
        decide
      · rw [htype]
        decide
    · obtain ⟨s1, hs1mem, hs1url, hs1act⟩ := hstepeq ▸ hself.1
      have hmem1 : s1 ∈ (processPage hashFn diffFn companyId acc1 p).1.filter
          (fun s => s.page_url = p.page_url) :=
        List.mem_filter.mpr ⟨hs1mem, by simp [hs1url]⟩
      have hmem2 : s1 ∈ ((l1 ++ p :: l2).foldl
          (processPage hashFn diffFn companyId)
          (markDeletedSnaps snaps live, deletedChanges snaps live)).1.filter
            (fun s => s.page_url = p.page_url) := by
        rw [hfold, hframe2.1]
        exact hmem1
      refine ⟨s1, ?_, hs1url, hs1act⟩
      unfold webwatchStep
      exact List.mem_of_mem_filter hmem2

theorem C4_webwatch_page_lifecycle_witness :
    ((wwPass2.2.filter (fun e => e.page_url = exPageUrl)).map
      (·.change_type)) = ["PAGE_DELETED"] := by
  have h := ((C4_webwatch_page_lifecycle exHash exDiff 1 wwPass1.1 []
    exPageUrl (wwPass1.1.headD
      { company_id := 1, page_url := exPageUrl, content_hash := "",
        content_text := "", pdf_urls_found := [], status_code := 0,
        is_active := true })
    (by decide) (by decide) (by decide) (by decide)).1
    (by intro p hp; cases hp) (by decide)).1
  exact h

/-- C4 (counterexample to the claim as stated): in a concrete three-pass run,
pass 2 (page absent) yields exactly one `PAGE_DELETED` and deactivates the
row, but pass 3 (page rediscovered) emits NO `PAGE_ADDED` event at all and
sets the OLD row's `is_active` back to true — a resurrection of the old
row's active flag, not a fresh `PAGE_ADDED` snapshot life-cycle. -/
theorem C4_counterexample_resurrection :
    (wwPass2.2.map (fun e => (e.change_type, e.page_url))) =
      [("PAGE_DELETED", exPageUrl)] ∧
    (wwPass2.1.map (fun s => (s.page_url, s.is_active))) =
      [(exPageUrl, false)] ∧
    wwPass3.2 = [] ∧
    (wwPass3.1.map (fun s => (s.page_url, s.is_active))) =
      [(exPageUrl, true)] := by
  refine ⟨by decide, by decide, by decide, by decide⟩

/-! ## C7 -/


theorem startsWithL_append (p t : List Char) :
    startsWithL (p ++ t) p = true :=
  List.isPrefixOf_iff_prefix.mpr ⟨t, rfl⟩

theorem splitFirstL_not_mem (sep : Char) :
    ∀ l : List Char, sep ∉ l → splitFirstL sep l = (l, none) := by
  intro l
  induction l with
  | nil => intro _; rfl
  | cons c r ih =>
    intro h
    have hc : ¬ c = sep := fun hh => h (hh ▸ List.mem_cons_self _ _)
    simp only [splitFirstL]
    rw [if_neg hc, ih (fun hm => h (List.mem_cons_of_mem _ hm))]

theorem splitFirstL_append (sep : Char) :
    ∀ pre post : List Char, sep ∉ pre →
      splitFirstL sep (pre ++ sep :: post) = (pre, some post) := by
  intro pre
  induction pre with
  | nil =>
    intro post _
    simp [splitFirstL]
  | cons c r ih =>
    intro post h
    have hc : ¬ c = sep := fun hh => h (hh ▸ List.mem_cons_self _ _)
    simp only [List.cons_append, splitFirstL, List.append_eq]
    rw [if_neg hc, ih post (fun hm => h (List.mem_cons_of_mem _ hm))]

theorem splitFirstL_none_eq (sep : Char) :
    ∀ l : List Char, (splitFirstL sep l).2 = none →
      (splitFirstL sep l).1 = l := by
  intro l
  induction l with
  | nil => intro _; rfl
  | cons c r ih =>
    simp only [splitFirstL]
    by_cases hc : c = sep
    · rw [if_pos hc]
      intro h
      cases h
    · rw [if_neg hc]
      intro h
      dsimp only at h ⊢
      rw [ih h]

theorem splitFirstL_some_eq (sep : Char) :
    ∀ l b, (splitFirstL sep l).2 = some b →
      l = (splitFirstL sep l).1 ++ sep :: b := by
  intro l
  induction l with
  | nil => intro b h; cases h
  | cons c r ih =>
    intro b
    simp only [splitFirstL]
    by_cases hc : c = sep
    · rw [if_pos hc]
      intro h
      dsimp only at h ⊢
      cases h
      rw [hc]
      rfl
    · rw [if_neg hc]
      intro h
      dsimp only at h ⊢
      rw [List.cons_append]
      exact congrArg (c :: ·) (ih b h)

theorem splitNetloc_append_eq :
    ∀ t : List Char, (splitNetloc t).1 ++ (splitNetloc t).2 = t := by
  intro t
  induction t with
  | nil => rfl
  | cons c r ih =>
    simp only [splitNetloc]
    by_cases hc : c = '/' ∨ c = '?' ∨ c = '#'
    · rw [if_pos hc]
      rfl
    · rw [if_neg hc]
      dsimp only
      rw [List.cons_append, ih]

theorem splitNetloc_snd_head :
    ∀ t : List Char, (splitNetloc t).2 = [] ∨ ∃ c r,
      (splitNetloc t).2 = c :: r ∧ (c = '/' ∨ c = '?' ∨ c = '#') := by
  intro t
  induction t with
  | nil => exact Or.inl rfl
  | cons c r ih =>
    simp only [splitNetloc]
    by_cases hc : c = '/' ∨ c = '?' ∨ c = '#'
    · rw [if_pos hc]
      exact Or.inr ⟨c, r, rfl, hc⟩
    · rw [if_neg hc]
      dsimp only
      exact ih

set_option maxRecDepth 10000 in
theorem normalize_id_core (schemeL t : List Char)
    (hsw : schemeL = "http".toList ∨ schemeL = "https".toList)
    (h1 : pyStripL (schemeL ++ ':' :: '/' :: '/' :: t) =
      schemeL ++ ':' :: '/' :: '/' :: t)
    (h2 : ∀ c ∈ schemeL ++ ':' :: '/' :: '/' :: t,
      ¬(c = '\t' ∨ c = '\r' ∨ c = '\n'))
    (h4 : (pyUrlsplit (schemeL ++ ':' :: '/' :: '/' :: t)).netloc ≠ [])
    (h5 : '#' ∉ schemeL ++ ':' :: '/' :: '/' :: t)
    (h6 : '?' ∈ schemeL ++ ':' :: '/' :: '/' :: t →
      (pyUrlsplit (schemeL ++ ':' :: '/' :: '/' :: t)).query ≠ [])
    (h7 : (if (!(pyUrlparse (schemeL ++ ':' :: '/' :: '/' :: t)).params.isEmpty) = true then
        (pyUrlparse (schemeL ++ ':' :: '/' :: '/' :: t)).path ++ ';' ::
          (pyUrlparse (schemeL ++ ':' :: '/' :: '/' :: t)).params
      else (pyUrlparse (schemeL ++ ':' :: '/' :: '/' :: t)).path) =
      (pyUrlsplit (schemeL ++ ':' :: '/' :: '/' :: t)).rawPath)
    (h8 : dropTrailingSlashes (pyUrlparse (schemeL ++ ':' :: '/' :: '/' :: t)).path =
      (pyUrlparse (schemeL ++ ':' :: '/' :: '/' :: t)).path)
    (h9 : urlencodeQsl (parseQsl (pyUrlsplit (schemeL ++ ':' :: '/' :: '/' :: t)).query) =
      (pyUrlsplit (schemeL ++ ':' :: '/' :: '/' :: t)).query)
    (h10 : ∀ kv ∈ parseQsl (pyUrlsplit (schemeL ++ ':' :: '/' :: '/' :: t)).query,
      isTrackingKey kv.1 = false) :
    pyNormalizeUrl (String.mk (schemeL ++ ':' :: '/' :: '/' :: t)) =
      String.mk (schemeL ++ ':' :: '/' :: '/' :: t) := by
  have hcolon : ':' ∉ schemeL := by
    rcases hsw with rfl | rfl <;> decide
  have hlower : schemeL.map Char.toLower = schemeL := by
    rcases hsw with rfl | rfl <;> decide
  have hSch : (!schemeL.isEmpty) = true := by
    rcases hsw with rfl | rfl <;> decide
  have hvalidc : (!schemeL.isEmpty) = true ∧
      ((schemeL.headD 'a').isAlpha) = true ∧
      (schemeL.all isSchemeChar) = true := by
    rcases hsw with rfl | rfl <;> refine ⟨by decide, by decide, by decide⟩
  have hdw : (schemeL ++ ':' :: '/' :: '/' :: t).dropWhile
      (fun c => c.toNat ≤ 32) = schemeL ++ ':' :: '/' :: '/' :: t := by
    rcases hsw with rfl | rfl <;>
      exact List.dropWhile_cons_of_neg (by decide)
  have hfilter : (schemeL ++ ':' :: '/' :: '/' :: t).filter
      (fun c => ¬(c = '\t' ∨ c = '\r' ∨ c = '\n')) =
      schemeL ++ ':' :: '/' :: '/' :: t :=
    List.filter_eq_self.mpr (fun c hc => decide_eq_true (h2 c hc))
  have hsplit1 : splitFirstL ':' (schemeL ++ ':' :: '/' :: '/' :: t) =
      (schemeL, some ('/' :: '/' :: t)) :=
    splitFirstL_append ':' schemeL ('/' :: '/' :: t) hcolon
  have hNR : (splitNetloc t).1 ++ (splitNetloc t).2 = t :=
    splitNetloc_append_eq t
  have hmemR : ∀ c ∈ (splitNetloc t).2,
      c ∈ schemeL ++ ':' :: '/' :: '/' :: t := by
    intro c hc
    apply List.mem_append_right
    simp only [List.mem_cons]
    right; right; right
    rw [← hNR]
    exact List.mem_append_right _ hc
  have hhashR : '#' ∉ (splitNetloc t).2 := fun hm => h5 (hmemR _ hm)
  have hsplitHash : splitFirstL '#' (splitNetloc t).2 =
      ((splitNetloc t).2, none) :=
    splitFirstL_not_mem '#' _ hhashR
  rcases hPQ : splitFirstL '?' (splitNetloc t).2 with ⟨P, oQ⟩
  have hurl : pyUrlsplit (schemeL ++ ':' :: '/' :: '/' :: t) =
      { schemeRaw := schemeL, netloc := (splitNetloc t).1, rawPath := P,
        query := oQ.getD [], fragment := [] } := by
    simp only [pyUrlsplit]
    rw [hdw, hfilter, hsplit1]
    dsimp only
    rw [if_pos hvalidc]
    dsimp only
    rw [if_pos (show startsWithL ('/' :: '/' :: t) ['/', '/'] = true from
      startsWithL_append ['/', '/'] t)]
    rw [show List.drop 2 ('/' :: '/' :: t) = t from rfl]
    try dsimp only
    rw [hsplitHash]
    dsimp only
    rw [hPQ]
    cases oQ <;> rfl
  rcases hpp : (if P.contains ';' then splitParams P
      else (P, ([] : List Char))) with ⟨pp1, pp2⟩
  have hparse : pyUrlparse (schemeL ++ ':' :: '/' :: '/' :: t) =
      { scheme := schemeL, netloc := (splitNetloc t).1, path := pp1,
        params := pp2, query := oQ.getD [], fragment := [] } := by
    simp only [pyUrlparse]
    rw [hurl]
    dsimp only
    rw [hpp, hlower]
  have hPshape : P = [] ∨ ∃ p', P = '/' :: p' := by
    rcases splitNetloc_snd_head t with hR | ⟨c, r, hRc, hcp⟩
    · rw [hR] at hPQ
      have h0 : (([] : List Char), (none : Option (List Char))) = (P, oQ) := by
        rw [← hPQ]
        rfl
      exact Or.inl (congrArg Prod.fst h0).symm
    · rcases hcp with rfl | rfl | rfl
      · rw [hRc] at hPQ
        rw [show splitFirstL '?' ('/' :: r) =
          ('/' :: (splitFirstL '?' r).1, (splitFirstL '?' r).2) from rfl]
          at hPQ
        exact Or.inr ⟨_, (congrArg Prod.fst hPQ).symm⟩
      · rw [hRc] at hPQ
        rw [show splitFirstL '?' ('?' :: r) =
          (([] : List Char), some r) from rfl] at hPQ
        exact Or.inl (congrArg Prod.fst hPQ).symm
      · exact absurd (hRc ▸ List.mem_cons_self '#' r) hhashR
  have hNe : (!(splitNetloc t).1.isEmpty) = true := by
    cases hsn : (splitNetloc t).1 with
    | nil =>
      rw [hurl] at h4
      exact absurd hsn h4
    | cons a l => rfl
  rw [hurl] at h6 h9 h10
  dsimp only at h6 h9 h10
  rw [hparse] at h7 h8
  dsimp only at h7 h8
  have hfilt : (parseQsl (oQ.getD ([] : List Char))).filter
      (fun kv => ¬ isTrackingKey kv.1) = parseQsl (oQ.getD ([] : List Char)) :=
    List.filter_eq_self.mpr (fun kv hkv => by simp [h10 kv hkv])
  have hc1 : Char.toLower ':' = ':' := by decide
  have hc2 : Char.toLower '/' = '/' := by decide
  have hmap : (schemeL ++ ':' :: '/' :: '/' :: t).map Char.toLower =
      schemeL ++ ':' :: '/' :: '/' :: (t.map Char.toLower) := by
    simp only [List.map_append, List.map_cons, hlower, hc1, hc2]
  have hABl : startsWithL ((schemeL ++ ':' :: '/' :: '/' :: t).map Char.toLower)
        ['h', 't', 't', 'p', ':', '/', '/'] = true ∨
      startsWithL ((schemeL ++ ':' :: '/' :: '/' :: t).map Char.toLower)
        ['h', 't', 't', 'p', 's', ':', '/', '/'] = true := by
    rcases hsw with rfl | rfl
    · exact Or.inl (by
        rw [hmap]
        exact startsWithL_append ['h', 't', 't', 'p', ':', '/', '/']
          (t.map Char.toLower))
    · exact Or.inr (by
        rw [hmap]
        exact startsWithL_append ['h', 't', 't', 'p', 's', ':', '/', '/']
          (t.map Char.toLower))
  simp only [pyNormalizeUrl, String.toList]
  try dsimp only
  rw [h1]
  rw [if_neg (not_not_intro hABl)]
  rw [hparse]
  dsimp only
  rw [hfilt, h9, h8]
  simp only [pyUrlunparse, pyUrlunsplit]
  dsimp only
  rw [h7, hurl]
  try dsimp only
  rw [if_pos ((Bool.or_eq_true _ _).mpr (Or.inl hNe))]
  have hcond3 : ¬((!P.isEmpty) = true ∧ ¬(startsWithL P ['/'] = true)) := by
    rcases hPshape with rfl | ⟨p', rfl⟩
    · intro hc
      exact absurd hc.1 (by decide)
    · intro hc
      exact hc.2 (startsWithL_append ['/'] p')
  rw [if_neg hcond3]
  rw [if_pos hSch]
  cases oQ with
  | none =>
    rw [show (none : Option (List Char)).getD ([] : List Char) = [] from rfl]
    rw [if_neg (by decide : ¬((!(List.isEmpty ([] : List Char))) = true))]
    rw [if_neg (by decide : ¬((!(List.isEmpty ([] : List Char))) = true))]
    have hPeq : P = (splitNetloc t).2 := by
      have hsnd : (splitFirstL '?' (splitNetloc t).2).2 = none :=
        congrArg Prod.snd hPQ
      have hfst := splitFirstL_none_eq '?' (splitNetloc t).2 hsnd
      rw [← hfst]
      exact (congrArg Prod.fst hPQ).symm
    have hlist : schemeL ++ ':' :: '/' :: '/' :: ((splitNetloc t).1 ++ P) =
        schemeL ++ ':' :: '/' :: '/' :: t := by
      rw [hPeq, hNR]
    exact congrArg String.mk hlist
  | some Q =>
    rw [show (some Q).getD ([] : List Char) = Q from rfl]
    have hReq : (splitNetloc t).2 = P ++ '?' :: Q := by
      have hsnd : (splitFirstL '?' (splitNetloc t).2).2 = some Q :=
        congrArg Prod.snd hPQ
      have h0 := splitFirstL_some_eq '?' (splitNetloc t).2 Q hsnd
      rw [congrArg Prod.fst hPQ] at h0
      exact h0
    have hmemQ : '?' ∈ schemeL ++ ':' :: '/' :: '/' :: t := by
      apply hmemR
      rw [hReq]
      exact List.mem_append_right _ (List.mem_cons_self _ _)
    have hQne : Q ≠ [] := h6 hmemQ
    have hQb : (!Q.isEmpty) = true := by
      cases hq : Q with
      | nil => exact absurd hq hQne
      | cons a l => rfl
    rw [if_pos hQb]
    have hlist : (schemeL ++ ':' :: '/' :: '/' ::
        ((splitNetloc t).1 ++ P)) ++ '?' :: Q =
        schemeL ++ ':' :: '/' :: '/' :: t := by
      conv_rhs => rw [← hNR, hReq]
      simp [List.append_assoc]
    exact congrArg String.mk hlist

set_option maxRecDepth 100000 in
/-- C7 (amended): the normalizer is the identity exactly on URLs in canonical
form (`canonicalUrl`): stripped, no unsafe bytes, literal lowercase
`http(s)://` scheme with a host, no fragment, `?` only with a non-empty
query, params rejoin, no trailing slash, and a query that equals the
re-encoding of its own parameter list with no tracking keys; and the spec's
concrete example normalizes as claimed. -/
theorem C7_normalize_identity_on_canonical :
    (∀ u : String, canonicalUrl u = true → pyNormalizeUrl u = u) ∧
    pyNormalizeUrl "https://x.com/report.pdf?utm_source=x&id=7#frag" =
      "https://x.com/report.pdf?id=7" := by
  constructor
  · intro u hcan
    obtain ⟨data⟩ := u
    simp only [canonicalUrl, Bool.and_eq_true] at hcan
    obtain ⟨⟨⟨⟨⟨⟨⟨⟨⟨h1, h2⟩, h3⟩, h4⟩, h5⟩, h6⟩, h7⟩, h8⟩, h9⟩, h10⟩ := hcan
    rcases (Bool.or_eq_true _ _).mp h3 with hsw | hsw
    · obtain ⟨tl, ht⟩ := List.isPrefixOf_iff_prefix.mp hsw
      have ht2 : "http://".toList ++ tl = data := ht
      subst ht2
      exact normalize_id_core "http".toList tl (Or.inl rfl)
        (eq_of_beq h1)
        (fun c hc => of_decide_eq_true (List.all_eq_true.mp h2 c hc))
        (by
          intro hnil
          have h4b : (!(pyUrlsplit ("http".toList ++
              ':' :: '/' :: '/' :: tl)).netloc.isEmpty) = true := h4
          rw [hnil] at h4b
          exact absurd h4b (by decide))
        (by simpa using h5)
        (by
          intro hq hqe
          have h6b : (!("http".toList ++
                ':' :: '/' :: '/' :: tl).contains '?' ||
              !(pyUrlsplit ("http".toList ++
                ':' :: '/' :: '/' :: tl)).query.isEmpty) = true := h6
          rcases (Bool.or_eq_true _ _).mp h6b with hA | hB
          · exact absurd hq (by simpa using hA)
          · rw [hqe] at hB
            exact absurd hB (by decide))
        (eq_of_beq h7) (eq_of_beq h8) (eq_of_beq h9)
        (fun kv hkv => by
          have hkk := List.all_eq_true.mp h10 kv hkv
          simpa using hkk)
    · obtain ⟨tl, ht⟩ := List.isPrefixOf_iff_prefix.mp hsw
      have ht2 : "https://".toList ++ tl = data := ht
      subst ht2
      exact normalize_id_core "https".toList tl (Or.inr rfl)
        (eq_of_beq h1)
        (fun c hc => of_decide_eq_true (List.all_eq_true.mp h2 c hc))
        (by
          intro hnil
          have h4b : (!(pyUrlsplit ("https".toList ++
              ':' :: '/' :: '/' :: tl)).netloc.isEmpty) = true := h4
          rw [hnil] at h4b
          exact absurd h4b (by decide))
        (by simpa using h5)
        (by
          intro hq hqe
          have h6b : (!("https".toList ++
                ':' :: '/' :: '/' :: tl).contains '?' ||
              !(pyUrlsplit ("https".toList ++
                ':' :: '/' :: '/' :: tl)).query.isEmpty) = true := h6
          rcases (Bool.or_eq_true _ _).mp h6b with hA | hB
          · exact absurd hq (by simpa using hA)
          · rw [hqe] at hB
            exact absurd hB (by decide))
        (eq_of_beq h7) (eq_of_beq h8) (eq_of_beq h9)
        (fun kv hkv => by
          have hkk := List.all_eq_true.mp h10 kv hkv
          simpa using hkk)
  · decide

set_option maxRecDepth 100000 in
theorem C7_normalize_identity_on_canonical_witness :
    canonicalUrl "https://x.com/report.pdf?id=7" = true ∧
    pyNormalizeUrl "https://x.com/report.pdf?id=7" =
      "https://x.com/report.pdf?id=7" :=
  ⟨by decide, C7_normalize_identity_on_canonical.1 "https://x.com/report.pdf?id=7"
    (by decide)⟩

set_option maxRecDepth 100000 in
/-- C7 (counterexample to the claim as stated): `https://x.com/report.pdf?a`
has no fragment, no tracking parameters and no trailing slash, yet the
normalizer rewrites it to `https://x.com/report.pdf?a=` because `parse_qsl`
plus `urlencode` gives a bare key an explicit empty value - the normalizer is
not the identity on all such URLs. -/
theorem C7_counterexample_bare_query_key :
    pyNormalizeUrl "https://x.com/report.pdf?a" =
      "https://x.com/report.pdf?a=" ∧
    "https://x.com/report.pdf?a=" ≠ "https://x.com/report.pdf?a" :=
  ⟨by decide, by decide⟩

end FinWatch
